import Mathlib

/-!
# Movion: the data-shaping helpers of `src/utils/Lib.js`

A shallow embedding of the credit normaliser (`filterCredits`, `compareCredits`,
the credit part of `filterPerson`) and of the image-URL builders, followed by the
properties proved about them.

JavaScript values are embedded as follows.

* `JSVal` is a primitive value read out of a parsed JSON object; a field that is
  missing from the object reads as `undefined`.
* `JSNum` is what `moment(date).year()` returns: an integer, or `NaN` for a date
  that moment cannot read.
* `null` as a result of `getYear` is `none`.
* `moment` is a third-party library: the year it reads off a date is a parameter
  `momentYear` of every routine that reaches it.
* A number is a double of integer value and is given by that integer; the
  rounding, the division and the printing of doubles are computed on integers.
* A routine that can raise returns a result or a `JSError`. The calls of
  `filterCredits` and `filterPerson` on arrays whose elements may be `null` or
  `undefined` are `filterCreditsCall` and `filterPersonCall`.
-/

namespace Movion

/-! ## Values -/

/-- A primitive JavaScript value: the content of a field of a parsed JSON object,
with `undefined` for a field the object does not have. A number is given by its
integer value. -/
inductive JSVal where
  | undefined
  | null
  | bool (b : Bool)
  | num (n : Int)
  | str (s : String)
  deriving DecidableEq, Repr

/-- The number returned by a moment getter: an integer, or `NaN` when the moment
is invalid. -/
inductive JSNum where
  | nan
  | int (n : Int)
  deriving DecidableEq, Repr

/-- The error a JavaScript routine raises: a TypeError (a property read off `null`
or `undefined`, a call of what is no function) or a RangeError (more arguments in
one call than the engine accepts). -/
inductive JSError where
  | typeError
  | rangeError
  deriving DecidableEq, Repr

/-! ## Numbers

A JavaScript number is a double. The numbers of this development have integer
values and are given by them; an integer that is no double stands for the double
nearest to it, the number its decimal is read as. What the engine does with the
numbers (rounding to a double, dividing, printing) is computed on the integers
below. -/

/-- The integer nearest to `a / b`, the even one of two that are equally near. -/
def roundDiv (a b : Nat) : Nat :=
  let q := a / b
  let r := a % b
  if 2 * r < b then q
  else if b < 2 * r then q + 1
  else if q % 2 = 0 then q else q + 1

/-- The exponent of `v` counted in at most `fuel` halvings. -/
def log2FloorFuel : Nat → Nat → Nat
  | 0, _ => 0
  | fuel + 1, v => if v < 2 then 0 else log2FloorFuel fuel (v / 2) + 1

/-- The binary exponent of `v >= 1`: the `e` with `2^e <= v < 2^(e+1)`. -/
def log2Floor (v : Nat) : Nat := log2FloorFuel v v

/-- The double nearest to the integer `v` (ties to even): below `2^53` every
integer is a double, and from `2^e` to `2^(e+1)` with `e >= 53` the doubles are the
multiples of `2^(e-52)`. The integers are taken below `2^1024`, where the doubles
end. -/
def toDouble (v : Nat) : Nat :=
  if v < 2 ^ 53 then v
  else
    let ulp := 2 ^ (log2Floor v - 52)
    roundDiv v ulp * ulp

/-- The number the decimal of the integer `n` is read as: the double nearest to
`n`. -/
def intToDouble (n : Int) : Int :=
  if n < 0 then -(toDouble n.natAbs : Int) else (toDouble n.toNat : Int)

/-- The search of `Number::toString` for the decimal with the fewest significant
digits that reads back as the double `x`: the multiples of `10^j` next to `x` are
tried from the largest `j` down, and of two that read back as `x` the nearer one
is taken (the one with the even last digit when both are equally near). -/
def shortestFrom (x : Nat) : Nat → Nat
  | 0 => x
  | j + 1 =>
    let p := 10 ^ (j + 1)
    let lo := x / p * p
    let hi := lo + p
    if toDouble lo = x ∧ toDouble hi = x then
      if x - lo < hi - x then lo
      else if hi - x < x - lo then hi
      else if (lo / p) % 2 = 0 then lo else hi
    else if toDouble lo = x then lo
    else if toDouble hi = x then hi
    else shortestFrom x j

/-- The integer whose digits `Number::toString` prints for the double `x`: `x`
itself below `2^53`, where every integer is a double and no other decimal reads
back as `x`, and the shortest decimal that reads back as `x` from there on. -/
def shortestDecimal (x : Nat) : Nat :=
  if x < 2 ^ 53 then x else shortestFrom x (Nat.toDigits 10 x).length

/-- The digits of a decimal without its trailing zeros. -/
def stripTrailingZeros (ds : List Char) : List Char :=
  (ds.reverse.dropWhile (fun c => c == '0')).reverse

/-- `Number::toString` of the non-negative number of integer value `v`: the digits
of its shortest decimal when there are at most 21 of them, and the exponent form
`d.ddde+n` beyond. -/
def natToString (v : Nat) : String :=
  let ds := Nat.toDigits 10 (shortestDecimal (toDouble v))
  if ds.length ≤ 21 then String.mk ds
  else
    match stripTrailingZeros ds with
    | [] => String.mk ds
    | d :: rest =>
      String.mk (d :: (if rest = [] then [] else '.' :: rest) ++ ['e', '+']
        ++ Nat.toDigits 10 (ds.length - 1))

/-- `Number::toString` of the number of integer value `n`. -/
def numberToString (n : Int) : String :=
  if n < 0 then "-" ++ natToString n.natAbs else natToString n.toNat

/-- The double nearest to `a / b` for `b <= a`, as a fraction: numerator and
denominator. With `2^e <= a / b < 2^(e+1)` the doubles around the quotient are the
multiples of `2^(e-52)`. -/
def quotientDouble (a b : Nat) : Nat × Nat :=
  let e := log2Floor (a / b)
  if 52 ≤ e then (roundDiv a (b * 2 ^ (e - 52)) * 2 ^ (e - 52), 1)
  else (roundDiv (a * 2 ^ (52 - e)) b, 2 ^ (52 - e))

/-- `Math.floor(a / b)` for numbers `a >= 0` and `0 < b < 2^53`: the quotient is
rounded to a double before it is rounded down. A quotient below `1` stays below
`1`. -/
def floorDivDouble (a b : Nat) : Nat :=
  if a < b then 0 else (quotientDouble a b).1 / (quotientDouble a b).2

/-- The integer `-Math.floor(-a / b)` for numbers `a >= 0` and `0 < b < 2^53`: the
double nearest to `a / b`, rounded up. -/
def ceilDivDouble (a b : Nat) : Nat :=
  if a = 0 then 0
  else if a < b then 1
  else ((quotientDouble a b).1 + (quotientDouble a b).2 - 1) / (quotientDouble a b).2

/-- `Math.floor(a / b)` for a number `a` and a number `0 < b < 2^53`. -/
def mathFloorDiv (a : Int) (b : Nat) : Int :=
  if 0 ≤ a then (floorDivDouble a.toNat b : Int) else -(ceilDivDouble a.natAbs b : Int)

namespace JSVal

/-- JavaScript truthiness (`ToBoolean`) of a primitive value. -/
def truthy : JSVal → Bool
  | undefined => false
  | null => false
  | bool b => b
  | num n => n != 0
  | str s => s != ""

/-- Strict equality `a === b` of two primitive values. -/
def strictEq (a b : JSVal) : Bool := decide (a = b)

/-- The operator `a || b`: `a` when it is truthy, `b` otherwise. -/
def or (a b : JSVal) : JSVal := if a.truthy then a else b

/-- JavaScript `ToString` of a primitive value. -/
def toStr : JSVal → String
  | undefined => "undefined"
  | null => "null"
  | bool true => "true"
  | bool false => "false"
  | num n => numberToString n
  | str s => s

end JSVal

namespace JSNum

/-- JavaScript truthiness of a number: `NaN` and `0` are falsy. -/
def truthy : JSNum → Bool
  | nan => false
  | int n => n != 0

/-- The comparison `a > b` of two numbers; it is false when either is `NaN`. -/
def gt : JSNum → JSNum → Bool
  | int a, int b => decide (a > b)
  | _, _ => false

/-- The comparison `a >= b` of two numbers; it is false when either is `NaN`. -/
def ge : JSNum → JSNum → Bool
  | int a, int b => decide (a ≥ b)
  | _, _ => false

end JSNum

/-! ## Constants and URL builders (Lib.js lines 5-8, 125-135) -/

def URL : String := "https://api.themoviedb.org/3"

def BACKDROP_URL : String := "https://image.tmdb.org/t/p/w1280"

def POSTER_URL : String := "https://image.tmdb.org/t/p/w500"

def PROFILE_URL : String := "https://image.tmdb.org/t/p/h632"

/-- `getBackdropURL(path)`: `(path === null) ? null : BACKDROP_URL + path`. -/
def getBackdropURL (path : JSVal) : JSVal :=
  if path.strictEq JSVal.null then JSVal.null else JSVal.str (BACKDROP_URL ++ path.toStr)

/-- `getPosterURL(path)`: `(path === null) ? null : POSTER_URL + path`. -/
def getPosterURL (path : JSVal) : JSVal :=
  if path.strictEq JSVal.null then JSVal.null else JSVal.str (POSTER_URL ++ path.toStr)

/-- `getProfileURL(path)`: `(path === null) ? null : PROFILE_URL + path`. -/
def getProfileURL (path : JSVal) : JSVal :=
  if path.strictEq JSVal.null then JSVal.null else JSVal.str (PROFILE_URL ++ path.toStr)

/-! ## Years (Lib.js lines 96-101) -/

/-- `getYear(date)`: `null` for a `null` or empty date, `moment(date).year()`
otherwise. -/
def getYear (momentYear : JSVal → JSNum) (date : JSVal) : Option JSNum :=
  if date.strictEq JSVal.null || date.strictEq (JSVal.str "") then none
  else some (momentYear date)

/-- The expression `getYear(...) || 5000` of `compareCredits`: the year when it is
a truthy number, `5000` when it is `null`, `NaN` or `0`. -/
def yearOrSentinel (year : Option JSNum) : JSNum :=
  match year with
  | none => JSNum.int 5000
  | some y => if y.truthy then y else JSNum.int 5000

/-! ## Credits (Lib.js lines 258-331, 424-432) -/

/-- One entry of a person's crew or cast list. `job = none` says the object has no
own property `job` (a cast entry); every other field reads as `undefined` when the
object does not have it. -/
structure RawCredit where
  id : JSVal
  title : JSVal
  poster_path : JSVal
  vote_average : JSVal
  release_date : JSVal
  job : Option JSVal
  character : JSVal
  deriving DecidableEq, Repr

/-- The object `fd` that `filterCredits` builds for a surviving entry. -/
structure NormalizedCredit where
  id : JSVal
  title : JSVal
  poster : JSVal
  rate : JSVal
  releaseYear : Option JSNum
  role : JSVal
  deriving DecidableEq, Repr

/-- The property read `data.job`: the value of the field, `undefined` without it. -/
def RawCredit.jobValue (data : RawCredit) : JSVal := data.job.getD JSVal.undefined

/-- The test `data.hasOwnProperty('job')`. -/
def RawCredit.hasJob (data : RawCredit) : Bool := data.job.isSome

/-- `compareCredits(a, b)`: `-1` when the year of `a` (or `5000`) is greater than
that of `b` (or `5000`), `1` otherwise. -/
def compareCredits (momentYear : JSVal → JSNum) (a b : RawCredit) : Int :=
  let yearA := yearOrSentinel (getYear momentYear a.release_date)
  let yearB := yearOrSentinel (getYear momentYear b.release_date)
  if yearA.gt yearB then -1 else 1

/-- The integer value of the expression `getYear(data.release_date) || 5000` that
`compareCredits` compares: the year `getYear` gives when it is a non-zero number,
`5000` when `getYear` gives `null`, `NaN` or `0`. -/
def sortKey (momentYear : JSVal → JSNum) (data : RawCredit) : Int :=
  match yearOrSentinel (getYear momentYear data.release_date) with
  | JSNum.int n => n
  | JSNum.nan => 0

/-- The two arrays `filterCredits` builds and returns. -/
structure FilterResult where
  filteredMovies : List NormalizedCredit
  filteredCredits : List NormalizedCredit
  deriving DecidableEq, Repr

/-- One pass of the loop body of `filterCredits` on the entry `data`; each
`continue` of the source leaves the two arrays as they are. -/
def filterStep (momentYear : JSVal → JSNum) (acc : FilterResult) (data : RawCredit) :
    FilterResult :=
  let releaseYear := getYear momentYear data.release_date
  if releaseYear = none then acc
  else
    let asCrew := data.hasJob
    if asCrew && (!data.jobValue.strictEq (JSVal.str "Director")
        && !data.jobValue.strictEq (JSVal.str "Producer")) then acc
    else
      let role := if asCrew then data.jobValue else data.character
      let role := role.or (JSVal.str "?")
      let fd : NormalizedCredit :=
        { id := data.id
          title := data.title
          poster := getPosterURL data.poster_path
          rate := data.vote_average
          releaseYear := releaseYear
          role := role }
      let filteredCredits := acc.filteredCredits ++ [fd]
      if (acc.filteredMovies.filter (fun d => d.id.strictEq data.id)).length > 0 then
        { filteredMovies := acc.filteredMovies, filteredCredits := filteredCredits }
      else
        { filteredMovies := acc.filteredMovies ++ [fd], filteredCredits := filteredCredits }

/-- `filterCredits(credits)`: the loop over `credits`, from two empty arrays. -/
def filterCredits (momentYear : JSVal → JSNum) (credits : List RawCredit) : FilterResult :=
  credits.foldl (filterStep momentYear) { filteredMovies := [], filteredCredits := [] }

/-- Modelled from the spec: one insertion of the sort below. The element `x`,
which came later in the array, moves ahead of an element `y` already placed only
when the comparator called on `(x, y)` answers a negative number. -/
def sortInsert {α : Type} (compare : α → α → Int) (x : α) : List α → List α
  | [] => [x]
  | y :: ys => if compare x y < 0 then x :: y :: ys else y :: sortInsert compare x ys

/-- Modelled from the spec: `Array.prototype.sort(compare)` is the JavaScript
engine's built-in, not code of this repository. It is modelled as the stable sort
the spec describes (section 4.1 step 1): the elements are placed one after the
other, each behind every element it is not reported to precede, so that entries
the comparator does not order keep their input order. -/
def sort {α : Type} (compare : α → α → Int) (array : List α) : List α :=
  array.foldl (fun sorted x => sortInsert compare x sorted) []

/-- The `movie_credits` object of the raw person data. -/
structure MovieCredits where
  cast : List RawCredit
  crew : List RawCredit
  deriving DecidableEq, Repr

/-- What the credit part of `filterPerson` leaves behind: the `movies` and
`credits` fields of the person it returns, and the caller's `movie_credits` object
after the call. -/
structure PersonCredits where
  movies : List NormalizedCredit
  credits : List NormalizedCredit
  movie_credits : MovieCredits
  deriving DecidableEq, Repr

/-- The credit part of `filterPerson(rawData)` (lines 263-270, 282-283): the cast
is pushed onto the crew array, that array is sorted in place with `compareCredits`
and handed to `filterCredits`. The other fields of the person do not depend on the
credits and are left out. -/
def filterPerson (momentYear : JSVal → JSNum) (movie_credits : MovieCredits) :
    PersonCredits :=
  let casts := movie_credits.cast
  let crews := movie_credits.crew ++ casts
  let credits := sort (compareCredits momentYear) crews
  let result := filterCredits momentYear credits
  { movies := result.filteredMovies
    credits := result.filteredCredits
    movie_credits := { cast := casts, crew := credits } }

/-! ## Calls that can raise (Lib.js lines 263-268, 289-331, 424-432) -/

/-- An element of an array of credits: an object with the fields of a credit
entry, or `null` or `undefined`, off which no property can be read. -/
inductive JSElement where
  | undefined
  | null
  | object (data : RawCredit)
  deriving DecidableEq, Repr

/-- The outcome of the credit part of a call of `filterPerson` that returns: the
`movies` and `credits` fields of the person, and the crew array after the call. -/
structure PersonCall where
  movies : List NormalizedCredit
  credits : List NormalizedCredit
  crew : List JSElement
  deriving DecidableEq, Repr

/-- A call `compareCredits(a, b)` on two array elements: the reads `a.release_date`
and `b.release_date` raise a TypeError on `null` and on `undefined`. -/
def compareCreditsCall (momentYear : JSVal → JSNum) :
    JSElement → JSElement → Except JSError Int
  | JSElement.object a, JSElement.object b => Except.ok (compareCredits momentYear a b)
  | _, _ => Except.error JSError.typeError

/-- One pass of the loop of `filterCredits` on the array element `data`: the read
`data.release_date` raises a TypeError on `null` and on `undefined`; on an object
the pass is `filterStep`, in which nothing raises. -/
def filterStepCall (momentYear : JSVal → JSNum) (acc : FilterResult) :
    JSElement → Except JSError FilterResult
  | JSElement.object data => Except.ok (filterStep momentYear acc data)
  | _ => Except.error JSError.typeError

/-- The loop of `filterCredits` from the arrays `acc` on: it ends at the first
pass that raises. -/
def filterLoopCall (momentYear : JSVal → JSNum) :
    FilterResult → List JSElement → Except JSError FilterResult
  | acc, [] => Except.ok acc
  | acc, data :: rest =>
    match filterStepCall momentYear acc data with
    | Except.error e => Except.error e
    | Except.ok next => filterLoopCall momentYear next rest

/-- A call `filterCredits(credits)` on an array of elements: the loop from two
empty arrays. -/
def filterCreditsCall (momentYear : JSVal → JSNum) (credits : List JSElement) :
    Except JSError FilterResult :=
  filterLoopCall momentYear { filteredMovies := [], filteredCredits := [] } credits

/-- Modelled from the spec: one insertion of the sort, as `sortInsert`, with a
comparator that can raise; what it raises ends the sort. -/
def sortInsertCall {α : Type} (compare : α → α → Except JSError Int) (x : α) :
    List α → Except JSError (List α)
  | [] => Except.ok [x]
  | y :: ys =>
    match compare x y with
    | Except.error e => Except.error e
    | Except.ok c =>
      if c < 0 then Except.ok (x :: y :: ys)
      else
        match sortInsertCall compare x ys with
        | Except.error e => Except.error e
        | Except.ok rest => Except.ok (y :: rest)

/-- Modelled from the spec: the insertions of the sort, one element after the
other, onto the elements `sorted` already placed. -/
def sortLoopCall {α : Type} (compare : α → α → Except JSError Int) :
    List α → List α → Except JSError (List α)
  | sorted, [] => Except.ok sorted
  | sorted, x :: xs =>
    match sortInsertCall compare x sorted with
    | Except.error e => Except.error e
    | Except.ok next => sortLoopCall compare next xs

/-- Modelled from the spec: `Array.prototype.sort(compare)` on an array of
elements, as `sort`, with a comparator that can raise. The engine puts the
`undefined` elements at the end without calling the comparator on them and sorts
the others. -/
def sortCall (compare : JSElement → JSElement → Except JSError Int)
    (array : List JSElement) : Except JSError (List JSElement) :=
  match sortLoopCall compare [] (array.filter (fun x => x != JSElement.undefined)) with
  | Except.error e => Except.error e
  | Except.ok sorted => Except.ok (sorted ++ array.filter (fun x => x == JSElement.undefined))

/-- The credit part of a call `filterPerson(rawData)` (lines 263-270, 282-283) on a
crew and a cast array of elements. `crews.push(...casts)` passes every element of
the cast as an argument of one call, and the engine raises a RangeError when these
are more than the `argumentLimit` arguments it accepts in a call; after it the
sort and `filterCredits` run and raise what the comparator and the loop raise. -/
def filterPersonCall (momentYear : JSVal → JSNum) (argumentLimit : Nat)
    (crew cast : List JSElement) : Except JSError PersonCall :=
  if argumentLimit < cast.length then Except.error JSError.rangeError
  else
    match sortCall (compareCreditsCall momentYear) (crew ++ cast) with
    | Except.error e => Except.error e
    | Except.ok credits =>
      match filterCreditsCall momentYear credits with
      | Except.error e => Except.error e
      | Except.ok result =>
        Except.ok
          { movies := result.filteredMovies
            credits := result.filteredCredits
            crew := credits }

/-! ## Request URLs (Lib.js lines 25-52) -/

/-- The built-in `Array.prototype.join(sep)` on an array of strings: the strings
in order, with `sep` between two neighbours. -/
def join (sep : String) : List String → String
  | [] => ""
  | [s] => s
  | s :: t :: rest => s ++ sep ++ join sep (t :: rest)

/-- One element `{key, val}` of the `params` array. -/
structure Param where
  key : JSVal
  val : JSVal
  deriving DecidableEq, Repr

/-- The string `param.key + '=' + param.val`. -/
def paramString (param : Param) : String := param.key.toStr ++ "=" ++ param.val.toStr

/-- What a call of `requestURL` leaves behind: the URL it returns and the array
`params` after the three pushes (the caller's own array when it was not `null`). -/
structure RequestResult where
  url : String
  params : List Param
  deriving DecidableEq, Repr

/-- `requestURL(endpoint, params)`, where `apiKey` is the value of
`process.env.REACT_APP_TMDB_API_KEY` and `params = none` is `null`. -/
def requestURL (apiKey : JSVal) (endpoint : JSVal) (params : Option (List Param)) :
    RequestResult :=
  let params := match params with
    | none => []
    | some array => array
  let params := params ++ [{ key := JSVal.str "api_key", val := apiKey }]
  let params := params ++ [{ key := JSVal.str "include_adult", val := JSVal.bool false }]
  let params := params ++ [{ key := JSVal.str "include_video", val := JSVal.bool false }]
  let paramArr := params.foldl (fun paramArr param => paramArr ++ [paramString param]) []
  { url := URL ++ endpoint.toStr ++ "?" ++ join "&" paramArr, params := params }

/-! ## Formatters (Lib.js lines 80-116, 380-401) -/

/-- `formatMinutes(minutes)` for `null` (`none`) or a number of integer value:
`Math.floor(minutes / 60)` divides doubles and rounds the quotient down, and
`minutes % 60`, which is exact on doubles, takes the sign of `minutes`. -/
def formatMinutes (minutes : Option Int) : String :=
  match minutes with
  | none => "?"
  | some minutes =>
    let minutes := intToDouble minutes
    let h := mathFloorDiv minutes 60
    let m := Int.tmod minutes 60
    if m = 0 then (JSVal.num h).toStr ++ "h"
    else (JSVal.num h).toStr ++ "h " ++ (JSVal.num m).toStr ++ "m"

/-- JavaScript `ToString` of a number that may be `NaN`. -/
def JSNum.toStr : JSNum → String
  | JSNum.nan => "NaN"
  | JSNum.int n => numberToString n

/-- The class `\w` of a regular expression: an ASCII letter, a digit or `_`. -/
def isWordChar (c : Char) : Bool := c.isAlphanum || c == '_'

/-- The number of characters of class `\d` a string starts with. -/
def digitRun : List Char → Nat
  | [] => 0
  | c :: cs => if c.isDigit then digitRun cs + 1 else 0

/-- Whether `/\B(?=(\d{3})+(?!\d))/` matches at the position between the character
`before` (none at the start) and the characters `rest`: the look-ahead asks for a
positive multiple of three digits not followed by a digit, that is, for a run of
digits whose length is a positive multiple of three; then `rest` starts with a
word character and `\B` holds exactly when `before` is a word character too. -/
def commaHere (before : Option Char) (rest : List Char) : Bool :=
  (match before with
    | none => false
    | some b => isWordChar b) && decide (0 < digitRun rest) && digitRun rest % 3 == 0

/-- The replacement `.replace(/\B(?=(\d{3})+(?!\d))/g, ",")` on the characters after
`before`: a comma goes in at every position where the pattern matches. -/
def insertCommas (before : Option Char) : List Char → List Char
  | [] => []
  | c :: cs =>
    (if commaHere before (c :: cs) then [','] else []) ++ c :: insertCommas (some c) cs

/-- The replacement `.replace(/\B(?=(\d{3})+(?!\d))/g, ",")` on a string. -/
def groupThousands (s : String) : String := String.mk (insertCommas none s.data)

/-- The replacement `.replace(/\,/g, "")` on a string: every comma is deleted. -/
def removeCommas (s : String) : String := String.mk (s.data.filter (fun c => c != ','))

/-- `formatCurrency(amount)`. `parseFloat` is the engine's built-in; a value that
is neither a number nor a string has no method `replace`, and the call raises a
`TypeError`. -/
def formatCurrency (parseFloat : String → JSNum) (amount : JSVal) : Except JSError String :=
  if amount.strictEq (JSVal.str "") then Except.ok "0"
  else
    match amount with
    | JSVal.num n => Except.ok ("$" ++ groupThousands (JSVal.num n).toStr)
    | JSVal.str s => Except.ok ("$" ++ groupThousands (parseFloat (removeCommas s)).toStr)
    | _ => Except.error JSError.typeError

/-- One element `{id, name}` of the `genres` array. -/
structure Genre where
  id : JSVal
  name : JSVal
  deriving DecidableEq, Repr

/-- `getShortGenre(genres)`, where `genres = none` is `null`; the template literal
of the last line converts both names to strings. -/
def getShortGenre (genres : Option (List Genre)) : JSVal :=
  match genres with
  | none => JSVal.str ""
  | some [] => JSVal.str ""
  | some [g0] =>
    let genre := if g0.name.strictEq (JSVal.str "Science Fiction") then JSVal.str "Sci-Fi"
      else g0.name
    genre
  | some (g0 :: g1 :: _) =>
    let genre1 := if g0.name.strictEq (JSVal.str "Science Fiction") then JSVal.str "Sci-Fi"
      else g0.name
    let genre2 := if g1.name.strictEq (JSVal.str "Science Fiction") then JSVal.str "Sci-Fi"
      else g1.name
    JSVal.str (genre1.toStr ++ "/" ++ genre2.toStr)

/-- The built-in `String.prototype.split(sep)` with a one-character separator:
the pieces of the string between the occurrences of `sep`, in order (one piece
more than there are occurrences). -/
def split (sep : Char) : List Char → List (List Char)
  | [] => [[]]
  | c :: cs =>
    if c = sep then [] :: split sep cs
    else
      match split sep cs with
      | [] => [[c]]
      | w :: ws => (c :: w) :: ws

/-- `getShortOverview(overview)`: `words.splice(0, 30)` returns the first thirty
words. -/
def getShortOverview (overview : String) : String :=
  let words := (split ' ' overview.data).map String.mk
  if words.length > 31 then join " " (words.take 30) ++ "..."
  else overview

/-! ## The claims' own words, to compare the code with -/

/-- The three parameters `requestURL` always adds, in the order it pushes them. -/
def defaultParams (apiKey : JSVal) : List Param :=
  [{ key := JSVal.str "api_key", val := apiKey },
   { key := JSVal.str "include_adult", val := JSVal.bool false },
   { key := JSVal.str "include_video", val := JSVal.bool false }]

/-- The number a release year stands for in a comparison: `null` converts to `0`. -/
def yearToNumber (year : Option JSNum) : JSNum :=
  match year with
  | none => JSNum.int 0
  | some y => y

/-- A list of credits is in descending release-year order when, for every pair of
adjacent entries, the year of the earlier one is `>=` the year of the later one. -/
def descendingYears : List NormalizedCredit → Bool
  | a :: b :: rest =>
    (yearToNumber a.releaseYear).ge (yearToNumber b.releaseYear) && descendingYears (b :: rest)
  | _ => true

/-- The role of a surviving entry in the words of the specification: the job when
the entry has one, the character otherwise, and `'?'` in place of a falsy value. -/
def roleOf (data : RawCredit) : JSVal :=
  (match data.job with
    | some job => job
    | none => data.character).or (JSVal.str "?")

/-- An entry survives when its release year resolves and it is either a cast entry
(no job field) or a crew entry whose job is "Director" or "Producer". -/
def survives (momentYear : JSVal → JSNum) (data : RawCredit) : Bool :=
  (getYear momentYear data.release_date).isSome &&
    (data.job == none || data.job == some (JSVal.str "Director")
      || data.job == some (JSVal.str "Producer"))

/-- The normalised credit a surviving entry is mapped to. -/
def toNormalized (momentYear : JSVal → JSNum) (data : RawCredit) : NormalizedCredit :=
  { id := data.id
    title := data.title
    poster := getPosterURL data.poster_path
    rate := data.vote_average
    releaseYear := getYear momentYear data.release_date
    role := roleOf data }

/-- The first-occurrence-by-id sub-sequence of a list of credits: an entry is kept
and every later entry with the same id is left out. -/
def firstById : List NormalizedCredit → List NormalizedCredit
  | [] => []
  | c :: cs => c :: (firstById cs).filter (fun d => !d.id.strictEq c.id)

/-- The movie list after one more surviving credit `fd`: `fd` is appended unless
an entry with its id is there already. -/
def pushMovie (movies : List NormalizedCredit) (fd : NormalizedCredit) :
    List NormalizedCredit :=
  if (movies.filter (fun d => d.id.strictEq fd.id)).length > 0 then movies
  else movies ++ [fd]

/-- The resolved year of an entry in the words of the specification: the sentinel
`5000` for an entry with `null` or empty release date, the year of its release
date otherwise. -/
def resolvedYear (momentYear : JSVal → JSNum) (data : RawCredit) : JSNum :=
  if data.release_date = JSVal.null ∨ data.release_date = JSVal.str "" then JSNum.int 5000
  else momentYear data.release_date

/-! ## Example data -/

/-- The entry `{id:1, title:"A", release_date:"2020-01-01", job:"Director"}`. -/
def creditDirector : RawCredit :=
  { id := JSVal.num 1
    title := JSVal.str "A"
    poster_path := JSVal.undefined
    vote_average := JSVal.undefined
    release_date := JSVal.str "2020-01-01"
    job := some (JSVal.str "Director")
    character := JSVal.undefined }

/-- The entry `{id:1, title:"A", release_date:"2020-01-01", character:"Hero"}`. -/
def creditHero : RawCredit :=
  { id := JSVal.num 1
    title := JSVal.str "A"
    poster_path := JSVal.undefined
    vote_average := JSVal.undefined
    release_date := JSVal.str "2020-01-01"
    job := none
    character := JSVal.str "Hero" }

/-- The entry `{id:2, title:"B", release_date:null, character:"X"}`. -/
def creditNoDate : RawCredit :=
  { id := JSVal.num 2
    title := JSVal.str "B"
    poster_path := JSVal.undefined
    vote_average := JSVal.undefined
    release_date := JSVal.null
    job := none
    character := JSVal.str "X" }

/-- The entry `{id:3, title:"C", release_date:"2020-01-01", job:"Editor"}`. -/
def creditEditor : RawCredit :=
  { id := JSVal.num 3
    title := JSVal.str "C"
    poster_path := JSVal.undefined
    vote_average := JSVal.undefined
    release_date := JSVal.str "2020-01-01"
    job := some (JSVal.str "Editor")
    character := JSVal.undefined }

/-- The entry `{id:4, title:"D", release_date:"2010-01-01", job:"Producer"}`. -/
def credit2010 : RawCredit :=
  { id := JSVal.num 4
    title := JSVal.str "D"
    poster_path := JSVal.undefined
    vote_average := JSVal.undefined
    release_date := JSVal.str "2010-01-01"
    job := some (JSVal.str "Producer")
    character := JSVal.undefined }

/-- The entry `{id:5, title:"E", release_date:"0000-01-01", character:"Y"}`, dated
in the year 0. -/
def creditYearZero : RawCredit :=
  { id := JSVal.num 5
    title := JSVal.str "E"
    poster_path := JSVal.undefined
    vote_average := JSVal.undefined
    release_date := JSVal.str "0000-01-01"
    job := none
    character := JSVal.str "Y" }

/-- The entry `{id:6, title:"F", release_date:"TBA", character:"Z"}`, whose date
moment cannot read. -/
def creditBadDate : RawCredit :=
  { id := JSVal.num 6
    title := JSVal.str "F"
    poster_path := JSVal.undefined
    vote_average := JSVal.undefined
    release_date := JSVal.str "TBA"
    job := none
    character := JSVal.str "Z" }

/-- The entry `{}`: every field is missing. -/
def creditAllMissing : RawCredit :=
  { id := JSVal.undefined
    title := JSVal.undefined
    poster_path := JSVal.undefined
    vote_average := JSVal.undefined
    release_date := JSVal.undefined
    job := none
    character := JSVal.undefined }

/-- The entry whose seven fields are all `null`. -/
def creditAllNull : RawCredit :=
  { id := JSVal.null
    title := JSVal.null
    poster_path := JSVal.null
    vote_average := JSVal.null
    release_date := JSVal.null
    job := some JSVal.null
    character := JSVal.null }

/-- The entry whose seven fields are all the empty string. -/
def creditAllEmpty : RawCredit :=
  { id := JSVal.str ""
    title := JSVal.str ""
    poster_path := JSVal.str ""
    vote_average := JSVal.str ""
    release_date := JSVal.str ""
    job := some (JSVal.str "")
    character := JSVal.str "" }

/-- The year moment reads off the dates of the examples: `2020` for
`"2020-01-01"`, `2010` for `"2010-01-01"`, `0` for `"0000-01-01"` and `NaN` for
`"TBA"`, which is no date. No other date occurs in the examples. -/
def exampleYear (date : JSVal) : JSNum :=
  if date = JSVal.str "2020-01-01" then JSNum.int 2020
  else if date = JSVal.str "2010-01-01" then JSNum.int 2010
  else if date = JSVal.str "0000-01-01" then JSNum.int 0
  else JSNum.nan

/-- The entry `{id:7, title:"G", release_date:"2020-01-01", character:"?"}`, a cast
entry whose character is the string `"?"`. -/
def creditQuestionMark : RawCredit :=
  { id := JSVal.num 7
    title := JSVal.str "G"
    poster_path := JSVal.undefined
    vote_average := JSVal.undefined
    release_date := JSVal.str "2020-01-01"
    job := none
    character := JSVal.str "?" }

/-- The display name of a genre in the words of the claim: "Science Fiction" is
shown as "Sci-Fi" and every other name as it is. -/
def displayGenre (name : JSVal) : JSVal :=
  if name = JSVal.str "Science Fiction" then JSVal.str "Sci-Fi" else name

/-- What `parseFloat` reads off the string of the example: the number `1234567`
for `"1234567"`; no other string is parsed in the examples. -/
def exampleParseFloat (s : String) : JSNum :=
  if s = "1234567" then JSNum.int 1234567 else JSNum.nan

/-! ## Lemmas on `filterCredits` -/

theorem strictEq_iff (a b : JSVal) : a.strictEq b = true ↔ a = b := by
  simp [JSVal.strictEq]

theorem filterStep_eq (momentYear : JSVal → JSNum) (acc : FilterResult) (data : RawCredit) :
    filterStep momentYear acc data =
      if survives momentYear data then
        { filteredMovies := pushMovie acc.filteredMovies (toNormalized momentYear data)
          filteredCredits := acc.filteredCredits ++ [toNormalized momentYear data] }
      else acc := by
  obtain ⟨id, title, poster_path, vote_average, release_date, job, character⟩ := data
  cases hy : getYear momentYear release_date with
  | none => simp [filterStep, survives, hy]
  | some y =>
    cases job with
    | none =>
      simp [filterStep, survives, hy, RawCredit.hasJob, pushMovie, toNormalized, roleOf]
      split <;> simp_all
    | some j =>
      by_cases h1 : j = JSVal.str "Director"
      · simp [filterStep, survives, hy, RawCredit.hasJob, RawCredit.jobValue, pushMovie,
          toNormalized, roleOf, h1, JSVal.strictEq]
        split <;> simp_all
      · by_cases h2 : j = JSVal.str "Producer"
        · simp [filterStep, survives, hy, RawCredit.hasJob, RawCredit.jobValue, pushMovie,
            toNormalized, roleOf, h2, JSVal.strictEq]
          split <;> simp_all
        · simp [filterStep, survives, hy, RawCredit.hasJob, RawCredit.jobValue, h1, h2,
            JSVal.strictEq]

theorem pushMovie_eq (movies : List NormalizedCredit) (fd : NormalizedCredit) :
    pushMovie movies fd =
      if movies.any (fun d => d.id.strictEq fd.id) then movies else movies ++ [fd] := by
  unfold pushMovie
  by_cases h : movies.any (fun d => d.id.strictEq fd.id) = true
  · have h2 : 0 < (movies.filter (fun d => d.id.strictEq fd.id)).length := by
      obtain ⟨d, hd, hp⟩ := List.any_eq_true.mp h
      exact List.length_pos_of_mem (List.mem_filter.mpr ⟨hd, hp⟩)
    simp only [gt_iff_lt, h2, h, if_true]
  · have h2 : ¬ 0 < (movies.filter (fun d => d.id.strictEq fd.id)).length := by
      intro hpos
      obtain ⟨d, hd⟩ := List.exists_mem_of_length_pos hpos
      exact h (List.any_eq_true.mpr ⟨d, (List.mem_filter.mp hd).1, (List.mem_filter.mp hd).2⟩)
    simp only [gt_iff_lt, h2, h, if_false]
    rfl

theorem foldl_filterStep (momentYear : JSVal → JSNum) (credits : List RawCredit) :
    ∀ acc : FilterResult,
      credits.foldl (filterStep momentYear) acc =
        { filteredMovies :=
            ((credits.filter (survives momentYear)).map (toNormalized momentYear)).foldl
              pushMovie acc.filteredMovies
          filteredCredits :=
            acc.filteredCredits ++
              (credits.filter (survives momentYear)).map (toNormalized momentYear) } := by
  induction credits with
  | nil => intro acc; simp
  | cons d ds ih =>
    intro acc
    rw [List.foldl_cons, ih, filterStep_eq]
    by_cases h : survives momentYear d = true
    · simp [h]
    · simp [h]

theorem filterCredits_eq (momentYear : JSVal → JSNum) (credits : List RawCredit) :
    filterCredits momentYear credits =
      { filteredMovies :=
          ((credits.filter (survives momentYear)).map (toNormalized momentYear)).foldl
            pushMovie []
        filteredCredits :=
          (credits.filter (survives momentYear)).map (toNormalized momentYear) } := by
  unfold filterCredits
  rw [foldl_filterStep]
  simp

theorem foldl_pushMovie (cs : List NormalizedCredit) :
    ∀ movies : List NormalizedCredit,
      cs.foldl pushMovie movies =
        movies ++ (firstById cs).filter
          (fun d => !movies.any (fun x => x.id.strictEq d.id)) := by
  induction cs with
  | nil => intro movies; simp [firstById]
  | cons c cs ih =>
    intro movies
    rw [List.foldl_cons, ih, pushMovie_eq]
    by_cases h : movies.any (fun d => d.id.strictEq c.id) = true
    · simp only [h, if_true, firstById, List.filter_cons, Bool.not_true]
      simp only [Bool.false_eq_true, if_false, List.filter_filter]
      congr 1
      apply List.filter_congr
      intro d _
      by_cases hd : movies.any (fun x => x.id.strictEq d.id) = true
      · simp [hd]
      · have : d.id.strictEq c.id = false := by
          by_contra hc
          have hc2 : d.id = c.id := (strictEq_iff _ _).mp (by simpa using hc)
          rw [hc2] at hd
          exact hd h
        simp [hd, this]
    · have h0 : movies.any (fun d => d.id.strictEq c.id) = false := by simpa using h
      simp only [h0, firstById, List.filter_cons, Bool.not_false, if_true,
        Bool.false_eq_true, if_false, List.filter_filter, List.append_assoc,
        List.singleton_append]
      congr 2
      apply List.filter_congr
      intro d _
      simp only [List.any_append, List.any_cons, List.any_nil, Bool.or_false, Bool.not_or]
      have : c.id.strictEq d.id = d.id.strictEq c.id := by
        simp only [JSVal.strictEq]
        exact decide_eq_decide.mpr eq_comm
      rw [this]

theorem filteredMovies_eq_firstById (momentYear : JSVal → JSNum) (credits : List RawCredit) :
    (filterCredits momentYear credits).filteredMovies =
      firstById (filterCredits momentYear credits).filteredCredits := by
  rw [filterCredits_eq]
  simp [foldl_pushMovie]

/-! ## Lemmas on `firstById` -/

theorem firstById_sublist (cs : List NormalizedCredit) : List.Sublist (firstById cs) cs := by
  induction cs with
  | nil => simp [firstById]
  | cons c cs ih =>
    simp only [firstById]
    exact List.Sublist.cons₂ c (List.Sublist.trans (List.filter_sublist _) ih)

theorem firstById_ids (cs : List NormalizedCredit) :
    ∀ c ∈ cs, ∃ m ∈ firstById cs, m.id = c.id := by
  induction cs with
  | nil => intro c hc; simp at hc
  | cons x xs ih =>
    intro c hc
    rcases List.mem_cons.mp hc with rfl | hc
    · exact ⟨c, by simp [firstById], rfl⟩
    · obtain ⟨m, hm, hid⟩ := ih c hc
      by_cases hx : m.id = x.id
      · exact ⟨x, by simp [firstById], by rw [← hx, hid]⟩
      · refine ⟨m, ?_, hid⟩
        simp only [firstById, List.mem_cons, List.mem_filter]
        right
        refine ⟨hm, ?_⟩
        simp [JSVal.strictEq, hx]

theorem firstById_nodup (cs : List NormalizedCredit) :
    ((firstById cs).map NormalizedCredit.id).Nodup := by
  induction cs with
  | nil => simp [firstById]
  | cons x xs ih =>
    simp only [firstById, List.map_cons, List.nodup_cons]
    constructor
    · intro hmem
      obtain ⟨d, hd, hid⟩ := List.mem_map.mp hmem
      have := (List.mem_filter.mp hd).2
      simp [JSVal.strictEq, hid] at this
    · exact List.Nodup.sublist (List.Sublist.map _ (List.filter_sublist _)) ih

theorem firstById_find (cs : List NormalizedCredit) :
    ∀ m ∈ firstById cs, cs.find? (fun c => c.id.strictEq m.id) = some m := by
  induction cs with
  | nil => intro m hm; simp [firstById] at hm
  | cons x xs ih =>
    intro m hm
    simp only [firstById, List.mem_cons, List.mem_filter] at hm
    rcases hm with rfl | ⟨hm, hne⟩
    · simp [List.find?, JSVal.strictEq]
    · have hne2 : x.id.strictEq m.id = false := by
        simp only [JSVal.strictEq] at hne ⊢
        simp only [Bool.not_eq_true', decide_eq_false_iff_not] at hne
        simp only [decide_eq_false_iff_not]
        exact fun h => hne h.symm
      simp only [List.find?, hne2]
      exact ih m hm

theorem firstById_filter (i : JSVal) (cs : List NormalizedCredit) :
    firstById (cs.filter (fun d => !d.id.strictEq i)) =
      (firstById cs).filter (fun d => !d.id.strictEq i) := by
  induction cs with
  | nil => simp [firstById]
  | cons x xs ih =>
    by_cases hx : x.id = i
    · have h1 : (!x.id.strictEq i) = false := by simp [JSVal.strictEq, hx]
      simp only [List.filter_cons, h1, Bool.false_eq_true, if_false, firstById, ih,
        List.filter_filter]
      apply List.filter_congr
      intro d _
      rw [hx]
      simp
    · have h1 : (!x.id.strictEq i) = true := by simp [JSVal.strictEq, hx]
      simp only [List.filter_cons, h1, if_true, firstById, ih, List.filter_filter]
      congr 1
      apply List.filter_congr
      intro d _
      exact Bool.and_comm _ _

theorem firstById_later_duplicate (pre post : List NormalizedCredit) (c : NormalizedCredit) :
    (∃ e ∈ pre, e.id = c.id) → firstById (pre ++ c :: post) = firstById (pre ++ post) := by
  induction pre with
  | nil => intro h; simp at h
  | cons x xs ih =>
    intro h
    simp only [List.cons_append, firstById]
    congr 1
    by_cases hx : x.id = c.id
    · rw [← firstById_filter, ← firstById_filter]
      congr 1
      simp [List.filter_cons, JSVal.strictEq, hx]
    · obtain ⟨e, he, hid⟩ := h
      rcases List.mem_cons.mp he with rfl | he
      · exact absurd hid hx
      · have h2 := ih ⟨e, he, hid⟩
        show List.filter _ (firstById (xs ++ c :: post)) = List.filter _ (firstById (xs ++ post))
        rw [h2]

/-! ## Lemmas on surviving entries -/

theorem survives_iff (momentYear : JSVal → JSNum) (data : RawCredit) :
    survives momentYear data = true ↔
      getYear momentYear data.release_date ≠ none ∧
        (data.job = none ∨ data.job = some (JSVal.str "Director")
          ∨ data.job = some (JSVal.str "Producer")) := by
  simp [survives, Option.isSome_iff_ne_none, or_assoc]

theorem getYear_null_or_empty (momentYear : JSVal → JSNum) (date : JSVal)
    (h : date = JSVal.null ∨ date = JSVal.str "") : getYear momentYear date = none := by
  rcases h with rfl | rfl <;> simp [getYear, JSVal.strictEq]

theorem getYear_eq_none_iff (momentYear : JSVal → JSNum) (date : JSVal) :
    getYear momentYear date = none ↔ (date = JSVal.null ∨ date = JSVal.str "") := by
  simp only [getYear, JSVal.strictEq, Bool.or_eq_true, decide_eq_true_eq]
  constructor
  · intro h
    by_contra hc
    simp [hc] at h
  · intro h
    simp [h]

theorem filterCredits_drop (momentYear : JSVal → JSNum) (pre post : List RawCredit)
    (d : RawCredit) (h : survives momentYear d = false) :
    filterCredits momentYear (pre ++ d :: post) = filterCredits momentYear (pre ++ post) := by
  simp [filterCredits_eq, List.filter_cons, h]

theorem roleOf_ne_empty (data : RawCredit) : roleOf data ≠ JSVal.str "" := by
  unfold roleOf JSVal.or
  split
  · rename_i h
    intro h2
    rw [h2] at h
    simp [JSVal.truthy] at h
  · simp

/-! ## Lemmas on `sort` -/

theorem sortInsert_perm {α : Type} (compare : α → α → Int) (x : α) (sorted : List α) :
    (sortInsert compare x sorted).Perm (x :: sorted) := by
  induction sorted with
  | nil => simp [sortInsert]
  | cons y ys ih =>
    simp only [sortInsert]
    split
    · exact List.Perm.refl _
    · exact (List.Perm.cons y ih).trans (List.Perm.swap x y ys)

theorem foldl_sortInsert_perm {α : Type} (compare : α → α → Int) (array : List α) :
    ∀ sorted : List α,
      (array.foldl (fun sorted x => sortInsert compare x sorted) sorted).Perm
        (sorted ++ array) := by
  induction array with
  | nil => intro sorted; simp
  | cons x xs ih =>
    intro sorted
    rw [List.foldl_cons]
    refine (ih _).trans ?_
    refine (List.Perm.append_right xs (sortInsert_perm compare x sorted)).trans ?_
    simpa using (@List.perm_middle _ x sorted xs).symm

theorem sort_perm {α : Type} (compare : α → α → Int) (array : List α) :
    (sort compare array).Perm array := by
  simpa [sort] using foldl_sortInsert_perm compare array []

theorem filterCredits_lengths (momentYear : JSVal → JSNum) (credits : List RawCredit) :
    (filterCredits momentYear credits).filteredCredits.length ≤ credits.length ∧
      (filterCredits momentYear credits).filteredMovies.length ≤
        (filterCredits momentYear credits).filteredCredits.length := by
  constructor
  · rw [filterCredits_eq]
    simpa using List.length_filter_le (survives momentYear) credits
  · rw [filteredMovies_eq_firstById]
    exact (firstById_sublist _).length_le

theorem roleOf_truthy (data : RawCredit) : (roleOf data).truthy = true := by
  unfold roleOf JSVal.or
  split
  · assumption
  · decide

theorem yearOrSentinel_eq_int (year : Option JSNum) :
    ∃ n : Int, yearOrSentinel year = JSNum.int n := by
  unfold yearOrSentinel
  cases year with
  | none => exact ⟨5000, rfl⟩
  | some y =>
    cases y with
    | nan => exact ⟨5000, by simp [JSNum.truthy]⟩
    | int n =>
      by_cases h : n = 0
      · exact ⟨5000, by simp [JSNum.truthy, h]⟩
      · exact ⟨n, by simp [JSNum.truthy, h]⟩

theorem compareCredits_neg_iff (momentYear : JSVal → JSNum) (a b : RawCredit) :
    compareCredits momentYear a b < 0 ↔ sortKey momentYear b < sortKey momentYear a := by
  obtain ⟨n, hn⟩ := yearOrSentinel_eq_int (getYear momentYear a.release_date)
  obtain ⟨m, hm⟩ := yearOrSentinel_eq_int (getYear momentYear b.release_date)
  simp only [compareCredits, sortKey, hn, hm, JSNum.gt]
  by_cases h : m < n
  · simp [h]
  · simp [h]

theorem sortInsert_sorted (momentYear : JSVal → JSNum) (x : RawCredit)
    (sorted : List RawCredit)
    (h : sorted.Pairwise (fun a b => sortKey momentYear b ≤ sortKey momentYear a)) :
    (sortInsert (compareCredits momentYear) x sorted).Pairwise
      (fun a b => sortKey momentYear b ≤ sortKey momentYear a) := by
  induction sorted with
  | nil => simp [sortInsert]
  | cons y ys ih =>
    have hy := List.pairwise_cons.mp h
    simp only [sortInsert]
    by_cases hc : compareCredits momentYear x y < 0
    · have hlt := (compareCredits_neg_iff momentYear x y).mp hc
      simp only [hc, if_true]
      refine List.pairwise_cons.mpr ⟨?_, h⟩
      intro z hz
      rcases List.mem_cons.mp hz with rfl | hz
      · exact le_of_lt hlt
      · exact le_trans (hy.1 z hz) (le_of_lt hlt)
    · have hge : ¬ sortKey momentYear y < sortKey momentYear x :=
        fun hlt => hc ((compareCredits_neg_iff momentYear x y).mpr hlt)
      simp only [hc, if_false]
      refine List.pairwise_cons.mpr ⟨?_, ih hy.2⟩
      intro z hz
      rcases List.mem_cons.mp ((sortInsert_perm _ x ys).subset hz) with rfl | hz
      · exact not_lt.mp hge
      · exact hy.1 z hz

theorem foldl_sortInsert_sorted (momentYear : JSVal → JSNum) (array : List RawCredit) :
    ∀ sorted : List RawCredit,
      sorted.Pairwise (fun a b => sortKey momentYear b ≤ sortKey momentYear a) →
      (array.foldl (fun sorted x => sortInsert (compareCredits momentYear) x sorted)
        sorted).Pairwise (fun a b => sortKey momentYear b ≤ sortKey momentYear a) := by
  induction array with
  | nil => intro sorted h; simpa using h
  | cons x xs ih =>
    intro sorted h
    rw [List.foldl_cons]
    exact ih _ (sortInsert_sorted momentYear x sorted h)

theorem sort_sorted (momentYear : JSVal → JSNum) (array : List RawCredit) :
    (sort (compareCredits momentYear) array).Pairwise
      (fun a b => sortKey momentYear b ≤ sortKey momentYear a) :=
  foldl_sortInsert_sorted momentYear array [] List.Pairwise.nil

theorem descendingYears_of_pairwise (credits : List NormalizedCredit)
    (h : credits.Pairwise
      (fun a b => (yearToNumber a.releaseYear).ge (yearToNumber b.releaseYear) = true)) :
    descendingYears credits = true := by
  induction credits with
  | nil => rfl
  | cons a rest ih =>
    cases rest with
    | nil => rfl
    | cons b rest =>
      have ha := List.pairwise_cons.mp h
      simp only [descendingYears, Bool.and_eq_true]
      exact ⟨ha.1 b (List.mem_cons_self b rest), ih ha.2⟩

theorem yearToNumber_of_truthy (momentYear : JSVal → JSNum) (d : RawCredit) (y : JSNum)
    (hy : getYear momentYear d.release_date = some y) (ht : y.truthy = true) :
    yearToNumber (toNormalized momentYear d).releaseYear = JSNum.int (sortKey momentYear d) := by
  cases y with
  | nan => simp [JSNum.truthy] at ht
  | int n => simp [toNormalized, yearToNumber, sortKey, yearOrSentinel, hy, ht]

/-- Away from falsy years the pipeline does sort: when every release year moment
reads in the crew and cast lists is a truthy number (neither `0` nor `NaN`), both
outputs of `filterPerson` are in descending release-year order. -/
theorem filterPerson_descending_of_truthy_years (momentYear : JSVal → JSNum)
    (movie_credits : MovieCredits)
    (h : ∀ d ∈ movie_credits.crew ++ movie_credits.cast, ∀ y : JSNum,
      getYear momentYear d.release_date = some y → y.truthy = true) :
    descendingYears (filterPerson momentYear movie_credits).credits = true ∧
      descendingYears (filterPerson momentYear movie_credits).movies = true := by
  have hsorted := sort_sorted momentYear (movie_credits.crew ++ movie_credits.cast)
  have hperm := sort_perm (compareCredits momentYear) (movie_credits.crew ++ movie_credits.cast)
  have hcredits : (filterPerson momentYear movie_credits).credits.Pairwise
      (fun a b => (yearToNumber a.releaseYear).ge (yearToNumber b.releaseYear) = true) := by
    simp only [filterPerson]
    rw [filterCredits_eq]
    simp only
    rw [List.pairwise_map]
    have hsub : ((sort (compareCredits momentYear)
        (movie_credits.crew ++ movie_credits.cast)).filter (survives momentYear)).Pairwise
        (fun a b => sortKey momentYear b ≤ sortKey momentYear a) :=
      List.Pairwise.sublist (List.filter_sublist _) hsorted
    refine List.Pairwise.imp_of_mem ?_ hsub
    intro a b ha hb hab
    have hkey : ∀ d ∈ (sort (compareCredits momentYear)
        (movie_credits.crew ++ movie_credits.cast)).filter (survives momentYear),
        yearToNumber (toNormalized momentYear d).releaseYear =
          JSNum.int (sortKey momentYear d) := by
      intro d hd
      have hmem := hperm.subset (List.mem_filter.mp hd).1
      have hsurv := (survives_iff momentYear d).mp (List.mem_filter.mp hd).2
      obtain ⟨y, hy⟩ := Option.ne_none_iff_exists'.mp hsurv.1
      exact yearToNumber_of_truthy momentYear d y hy (h d hmem y hy)
    rw [hkey a ha, hkey b hb]
    simpa [JSNum.ge] using hab
  refine ⟨descendingYears_of_pairwise _ hcredits, descendingYears_of_pairwise _ ?_⟩
  have hm : (filterPerson momentYear movie_credits).movies =
      firstById (filterPerson momentYear movie_credits).credits := by
    simp only [filterPerson]
    exact filteredMovies_eq_firstById momentYear _
  rw [hm]
  exact List.Pairwise.sublist (firstById_sublist _) hcredits

/-! ## The credit normaliser: dropped entries -/

/-- C1: an entry whose release date is `null` or the empty string has no release
year (`getYear` returns `null`) and contributes nothing to either output of
`filterCredits`: the result is the one obtained without the entry. Moreover, for
every input list, every element of `filteredCredits` and of `filteredMovies` has a
release year that is not `null`. -/
theorem filterCredits_drops_entry_without_year (momentYear : JSVal → JSNum)
    (pre post credits : List RawCredit) (d : RawCredit)
    (h : d.release_date = JSVal.null ∨ d.release_date = JSVal.str "") :
    getYear momentYear d.release_date = none ∧
      filterCredits momentYear (pre ++ d :: post) = filterCredits momentYear (pre ++ post) ∧
      (∀ fd ∈ (filterCredits momentYear credits).filteredCredits, fd.releaseYear ≠ none) ∧
      (∀ fd ∈ (filterCredits momentYear credits).filteredMovies, fd.releaseYear ≠ none) := by
  have hy := getYear_null_or_empty momentYear d.release_date h
  have hs : survives momentYear d = false := by simp [survives, hy]
  have hc : ∀ fd ∈ (filterCredits momentYear credits).filteredCredits,
      fd.releaseYear ≠ none := by
    intro fd hfd
    rw [filterCredits_eq] at hfd
    obtain ⟨x, hx, rfl⟩ := List.mem_map.mp hfd
    exact ((survives_iff momentYear x).mp (List.mem_filter.mp hx).2).1
  refine ⟨hy, filterCredits_drop momentYear pre post d hs, hc, ?_⟩
  intro fd hfd
  rw [filteredMovies_eq_firstById] at hfd
  exact hc fd ((firstById_sublist _).subset hfd)

/-- Witness of C1: the entry of id 2 with a `null` release date, between two
entries dated 2020. -/
theorem filterCredits_drops_entry_without_year_witness :
    getYear exampleYear creditNoDate.release_date = none ∧
      filterCredits exampleYear ([creditDirector] ++ creditNoDate :: [creditHero]) =
        filterCredits exampleYear ([creditDirector] ++ [creditHero]) ∧
      (∀ fd ∈ (filterCredits exampleYear [creditNoDate, creditHero]).filteredCredits,
        fd.releaseYear ≠ none) ∧
      (∀ fd ∈ (filterCredits exampleYear [creditNoDate, creditHero]).filteredMovies,
        fd.releaseYear ≠ none) :=
  filterCredits_drops_entry_without_year exampleYear [creditDirector] [creditHero]
    [creditNoDate, creditHero] creditNoDate (Or.inl rfl)

/-- C2: an entry that has a job field whose value is neither "Director" nor
"Producer" contributes nothing to either output of `filterCredits`, whatever its
release date: the result is the one obtained without the entry. -/
theorem filterCredits_drops_other_crew (momentYear : JSVal → JSNum)
    (pre post : List RawCredit) (d : RawCredit) (job : JSVal) (hjob : d.job = some job)
    (hd : job ≠ JSVal.str "Director") (hp : job ≠ JSVal.str "Producer") :
    filterCredits momentYear (pre ++ d :: post) = filterCredits momentYear (pre ++ post) := by
  apply filterCredits_drop
  simp [survives, hjob, hd, hp]

/-- Witness of C2: an "Editor" entry between two surviving entries. -/
theorem filterCredits_drops_other_crew_witness :
    filterCredits exampleYear ([creditDirector] ++ creditEditor :: [creditHero]) =
      filterCredits exampleYear ([creditDirector] ++ [creditHero]) :=
  filterCredits_drops_other_crew exampleYear [creditDirector] [creditHero] creditEditor
    (JSVal.str "Editor") rfl (by decide) (by decide)

/-! ## The credit normaliser: the movie list -/

/-- C3: for every input list, `filteredMovies` holds at most one entry per id (the
ids of its entries are pairwise different, so no two positions hold the same id),
while `filteredCredits` may hold several entries with one id: the director and the
actor entry of movie 1 both stay in it. -/
theorem filteredMovies_one_entry_per_id (momentYear : JSVal → JSNum)
    (credits : List RawCredit) :
    ((filterCredits momentYear credits).filteredMovies.map NormalizedCredit.id).Nodup ∧
      (∀ (i j : Nat) (hi : i < (filterCredits momentYear credits).filteredMovies.length)
        (hj : j < (filterCredits momentYear credits).filteredMovies.length), i ≠ j →
        ((filterCredits momentYear credits).filteredMovies.get ⟨i, hi⟩).id.strictEq
          ((filterCredits momentYear credits).filteredMovies.get ⟨j, hj⟩).id = false) ∧
      (filterCredits momentYear [creditDirector, creditHero]).filteredCredits.map
        NormalizedCredit.id = [JSVal.num 1, JSVal.num 1] := by
  have hnd : ((filterCredits momentYear credits).filteredMovies.map
      NormalizedCredit.id).Nodup := by
    rw [filteredMovies_eq_firstById]
    exact firstById_nodup _
  refine ⟨hnd, ?_, ?_⟩
  · intro i j hi hj hij
    have hi2 : i < ((filterCredits momentYear credits).filteredMovies.map
        NormalizedCredit.id).length := by simpa using hi
    have hj2 : j < ((filterCredits momentYear credits).filteredMovies.map
        NormalizedCredit.id).length := by simpa using hj
    have hne := fun h => hij ((List.Nodup.get_inj_iff hnd (i := ⟨i, hi2⟩) (j := ⟨j, hj2⟩)).mp h
      |> Fin.mk.inj_iff.mp)
    simp only [List.get_eq_getElem, List.getElem_map] at hne
    simp only [List.get_eq_getElem, JSVal.strictEq, decide_eq_false_iff_not]
    exact hne
  · have h1 : survives momentYear creditDirector = true := by
      simp [survives, getYear, JSVal.strictEq, creditDirector]
    have h2 : survives momentYear creditHero = true := by
      simp [survives, getYear, JSVal.strictEq, creditHero]
    rw [filterCredits_eq]
    simp only [List.filter_cons, h1, h2, if_true, List.filter_nil, List.map_cons, List.map_nil]
    rfl

/-- C4: for every input list, `filteredMovies` is the first-occurrence-by-id
sub-sequence of `filteredCredits`: it is an order-preserving sub-list of it, every
id of `filteredCredits` occurs in it, each of its entries is the first entry of
`filteredCredits` with that id, and a later entry of `filteredCredits` whose id was
seen before has no effect on it (it stays in `filteredCredits` only). -/
theorem filteredMovies_first_occurrence (momentYear : JSVal → JSNum)
    (credits : List RawCredit) :
    (filterCredits momentYear credits).filteredMovies =
        firstById (filterCredits momentYear credits).filteredCredits ∧
      List.Sublist (filterCredits momentYear credits).filteredMovies
        (filterCredits momentYear credits).filteredCredits ∧
      (∀ c ∈ (filterCredits momentYear credits).filteredCredits,
        ∃ m ∈ (filterCredits momentYear credits).filteredMovies, m.id = c.id) ∧
      (∀ m ∈ (filterCredits momentYear credits).filteredMovies,
        (filterCredits momentYear credits).filteredCredits.find?
          (fun c => c.id.strictEq m.id) = some m) ∧
      (∀ (pre post : List NormalizedCredit) (c : NormalizedCredit),
        (filterCredits momentYear credits).filteredCredits = pre ++ c :: post →
        (∃ e ∈ pre, e.id = c.id) →
        (filterCredits momentYear credits).filteredMovies = firstById (pre ++ post)) := by
  have h := filteredMovies_eq_firstById momentYear credits
  refine ⟨h, ?_, ?_, ?_, ?_⟩
  · rw [h]; exact firstById_sublist _
  · rw [h]; exact firstById_ids _
  · rw [h]; exact firstById_find _
  · intro pre post c hsplit hdup
    rw [h, hsplit]
    exact firstById_later_duplicate pre post c hdup

/-! ## The credit normaliser: the full credit list -/

/-- C5: for every input list, `filteredCredits` is the input filtered, in input
order, to the surviving entries (the release year resolves, and the entry has no
job field or its job is "Director" or "Producer") and mapped one for one to
`{id, title, poster = getPosterURL(poster_path), rate = vote_average,
releaseYear = getYear(release_date), role}`; in particular every cast entry with a
resolvable release year appears, whatever its character. -/
theorem filteredCredits_filter_map (momentYear : JSVal → JSNum) (credits : List RawCredit) :
    (filterCredits momentYear credits).filteredCredits =
        (credits.filter (survives momentYear)).map (toNormalized momentYear) ∧
      (∀ d : RawCredit, survives momentYear d = true ↔
        getYear momentYear d.release_date ≠ none ∧
          (d.job = none ∨ d.job = some (JSVal.str "Director")
            ∨ d.job = some (JSVal.str "Producer"))) ∧
      (∀ d : RawCredit,
        (toNormalized momentYear d).id = d.id ∧
        (toNormalized momentYear d).title = d.title ∧
        (toNormalized momentYear d).poster = getPosterURL d.poster_path ∧
        (toNormalized momentYear d).rate = d.vote_average ∧
        (toNormalized momentYear d).releaseYear = getYear momentYear d.release_date ∧
        (toNormalized momentYear d).role = roleOf d) ∧
      (∀ d ∈ credits, d.job = none → getYear momentYear d.release_date ≠ none →
        toNormalized momentYear d ∈ (filterCredits momentYear credits).filteredCredits) := by
  refine ⟨by rw [filterCredits_eq], survives_iff momentYear, fun d => ?_, ?_⟩
  · simp [toNormalized]
  · intro d hd hjob hyear
    rw [filterCredits_eq]
    exact List.mem_map.mpr ⟨d, List.mem_filter.mpr
      ⟨hd, (survives_iff momentYear d).mpr ⟨hyear, Or.inl hjob⟩⟩, rfl⟩

/-- C6: the roles `filterCredits` writes are, entry for entry, those of the
surviving input entries, where the role of an entry is its job when it has a job
field and its character otherwise, replaced by `'?'` when that value is falsy
(`null`, `undefined` and the empty string are); an entry with no job and character
`""` gets `'?'`, and no entry of either output has the empty string as role. -/
theorem filterCredits_role (momentYear : JSVal → JSNum) (credits : List RawCredit) :
    (filterCredits momentYear credits).filteredCredits.map NormalizedCredit.role =
        (credits.filter (survives momentYear)).map roleOf ∧
      (∀ (d : RawCredit) (job : JSVal), d.job = some job →
        roleOf d = if job.truthy then job else JSVal.str "?") ∧
      (∀ d : RawCredit, d.job = none →
        roleOf d = if d.character.truthy then d.character else JSVal.str "?") ∧
      (JSVal.null.truthy = false ∧ JSVal.undefined.truthy = false ∧
        (JSVal.str "").truthy = false) ∧
      (∀ d : RawCredit, d.job = none → d.character = JSVal.str "" →
        roleOf d = JSVal.str "?") ∧
      (∀ fd ∈ (filterCredits momentYear credits).filteredCredits, fd.role ≠ JSVal.str "") ∧
      (∀ fd ∈ (filterCredits momentYear credits).filteredMovies, fd.role ≠ JSVal.str "") := by
  have hc : ∀ fd ∈ (filterCredits momentYear credits).filteredCredits,
      fd.role ≠ JSVal.str "" := by
    intro fd hfd
    rw [filterCredits_eq] at hfd
    obtain ⟨x, _, rfl⟩ := List.mem_map.mp hfd
    exact roleOf_ne_empty x
  refine ⟨?_, ?_, ?_, ⟨rfl, rfl, by decide⟩, ?_, hc, ?_⟩
  · rw [filterCredits_eq]
    simp [List.map_map, Function.comp_def, toNormalized]
  · intro d job hjob
    simp [roleOf, hjob, JSVal.or]
  · intro d hjob
    simp [roleOf, hjob, JSVal.or]
  · intro d hjob hchar
    simp [roleOf, hjob, hchar, JSVal.or, JSVal.truthy]
  · intro fd hfd
    rw [filteredMovies_eq_firstById] at hfd
    exact hc fd ((firstById_sublist _).subset hfd)

/-! ## The sort-then-filter pipeline -/

/-- C7, the code at a failing input: with the crew `[credit2010]` and the cast
`[creditYearZero]`, the year `0` is falsy, `compareCredits` takes it for the
sentinel `5000` and the sort puts the entry first, yet it survives the filter with
its year `0`: both outputs are `[0, 2010]`, which is not descending. The same
happens with a date moment cannot read (year `NaN`). The outcome does not depend
on how the engine sorts: every arrangement of the two entries that the comparator
does not contradict gives the years `[0, 2010]`. -/
theorem filterPerson_falsy_year_first :
    (filterPerson exampleYear { crew := [credit2010], cast := [creditYearZero] }).credits.map
        NormalizedCredit.releaseYear = [some (JSNum.int 0), some (JSNum.int 2010)] ∧
      (filterPerson exampleYear { crew := [credit2010], cast := [creditYearZero] }).movies.map
        NormalizedCredit.releaseYear = [some (JSNum.int 0), some (JSNum.int 2010)] ∧
      descendingYears
        (filterPerson exampleYear { crew := [credit2010], cast := [creditYearZero] }).credits
          = false ∧
      descendingYears
        (filterPerson exampleYear { crew := [credit2010], cast := [creditYearZero] }).movies
          = false ∧
      (filterPerson exampleYear { crew := [credit2010], cast := [creditBadDate] }).credits.map
        NormalizedCredit.releaseYear = [some JSNum.nan, some (JSNum.int 2010)] ∧
      descendingYears
        (filterPerson exampleYear { crew := [credit2010], cast := [creditBadDate] }).credits
          = false ∧
      (∀ sorted : List RawCredit, sorted.Perm [credit2010, creditYearZero] →
        sorted.Pairwise (fun a b => ¬ compareCredits exampleYear b a < 0) →
        (filterCredits exampleYear sorted).filteredCredits.map NormalizedCredit.releaseYear =
          [some (JSNum.int 0), some (JSNum.int 2010)]) := by
  refine ⟨by decide, by decide, by decide, by decide, by decide, by decide, ?_⟩
  intro sorted hp hs
  have hlt : compareCredits exampleYear creditYearZero credit2010 < 0 := by decide
  have hout : (filterCredits exampleYear [creditYearZero, credit2010]).filteredCredits.map
      NormalizedCredit.releaseYear = [some (JSNum.int 0), some (JSNum.int 2010)] := by decide
  generalize credit2010 = a at hp hlt hout
  generalize creditYearZero = b at hp hlt hout
  obtain ⟨x, y, rfl⟩ := List.length_eq_two.mp hp.length_eq
  have hord : ¬ compareCredits exampleYear y x < 0 :=
    (List.pairwise_cons.mp hs).1 y (by simp)
  have hx : x = a ∨ x = b := by simpa using hp.subset (List.mem_cons_self x [y])
  have hy : y = a ∨ y = b := by
    simpa using hp.subset (List.mem_cons_of_mem x (List.mem_cons_self y []))
  have ha : a = x ∨ a = y := by simpa using hp.symm.subset (List.mem_cons_self a [b])
  have hb : b = x ∨ b = y := by
    simpa using hp.symm.subset (List.mem_cons_of_mem a (List.mem_cons_self b []))
  rcases hx with rfl | rfl
  · rcases hy with rfl | rfl
    · rcases hb with rfl | rfl <;> exact absurd hlt hord
    · exact absurd hlt hord
  · rcases hy with rfl | rfl
    · exact hout
    · rcases ha with rfl | rfl <;> exact absurd hlt hord

/-- C8: on the combined input `[creditDirector, creditHero, creditNoDate]`, whatever
year moment reads off `"2020-01-01"`, sorting with `compareCredits` and then
applying `filterCredits` yields a full credit list of exactly two entries, both of
id 1 (the entry of id 2 is dropped for its `null` date), and a movie list of
exactly one entry, of id 1 and role "Director"; when that year is 2020 the two
lists are the ones written out, and `filterPerson` on the crew `[creditDirector]`
and the cast `[creditHero, creditNoDate]` returns them. The same two lists come
out of every arrangement of the three entries that keeps the director entry ahead
of the actor entry. -/
theorem filterCredits_example (momentYear : JSVal → JSNum) :
    (filterCredits momentYear (sort (compareCredits momentYear)
        [creditDirector, creditHero, creditNoDate])).filteredCredits.length = 2 ∧
      (filterCredits momentYear (sort (compareCredits momentYear)
        [creditDirector, creditHero, creditNoDate])).filteredCredits.map NormalizedCredit.id
          = [JSVal.num 1, JSVal.num 1] ∧
      (filterCredits momentYear (sort (compareCredits momentYear)
        [creditDirector, creditHero, creditNoDate])).filteredMovies.length = 1 ∧
      (filterCredits momentYear (sort (compareCredits momentYear)
        [creditDirector, creditHero, creditNoDate])).filteredMovies.map
          (fun fd => (fd.id, fd.role)) = [(JSVal.num 1, JSVal.str "Director")] ∧
      filterCredits exampleYear (sort (compareCredits exampleYear)
        [creditDirector, creditHero, creditNoDate]) =
        { filteredMovies :=
            [{ id := JSVal.num 1, title := JSVal.str "A",
               poster := JSVal.str "https://image.tmdb.org/t/p/w500undefined",
               rate := JSVal.undefined, releaseYear := some (JSNum.int 2020),
               role := JSVal.str "Director" }]
          filteredCredits :=
            [{ id := JSVal.num 1, title := JSVal.str "A",
               poster := JSVal.str "https://image.tmdb.org/t/p/w500undefined",
               rate := JSVal.undefined, releaseYear := some (JSNum.int 2020),
               role := JSVal.str "Director" },
             { id := JSVal.num 1, title := JSVal.str "A",
               poster := JSVal.str "https://image.tmdb.org/t/p/w500undefined",
               rate := JSVal.undefined, releaseYear := some (JSNum.int 2020),
               role := JSVal.str "Hero" }] } ∧
      (filterPerson exampleYear
        { crew := [creditDirector], cast := [creditHero, creditNoDate] }).movies.map
          (fun fd => (fd.id, fd.role)) = [(JSVal.num 1, JSVal.str "Director")] ∧
      (filterPerson exampleYear
        { crew := [creditDirector], cast := [creditHero, creditNoDate] }).credits.map
          (fun fd => (fd.id, fd.role)) =
            [(JSVal.num 1, JSVal.str "Director"), (JSVal.num 1, JSVal.str "Hero")] ∧
      (∀ sorted : List RawCredit,
        sorted.Perm [creditDirector, creditHero, creditNoDate] →
        List.Sublist [creditDirector, creditHero] sorted →
        filterCredits momentYear sorted =
          { filteredMovies := [toNormalized momentYear creditDirector]
            filteredCredits :=
              [toNormalized momentYear creditDirector, toNormalized momentYear creditHero] }) := by
  have hD : survives momentYear creditDirector = true := by
    simp [survives, getYear, JSVal.strictEq, creditDirector]
  have hH : survives momentYear creditHero = true := by
    simp [survives, getYear, JSVal.strictEq, creditHero]
  have hX : survives momentYear creditNoDate = false := by
    simp [survives, getYear, JSVal.strictEq, creditNoDate]
  have hHD : compareCredits momentYear creditHero creditDirector = 1 := by
    have hdate : creditHero.release_date = creditDirector.release_date := rfl
    unfold compareCredits
    rw [hdate]
    cases yearOrSentinel (getYear momentYear creditDirector.release_date) with
    | nan => simp [JSNum.gt]
    | int n => simp [JSNum.gt]
  have hXH : compareCredits momentYear creditNoDate creditHero =
      compareCredits momentYear creditNoDate creditDirector := rfl
  have hsort : sort (compareCredits momentYear) [creditDirector, creditHero, creditNoDate] =
        [creditNoDate, creditDirector, creditHero] ∨
      sort (compareCredits momentYear) [creditDirector, creditHero, creditNoDate] =
        [creditDirector, creditHero, creditNoDate] := by
    simp only [sort, List.foldl_cons, List.foldl_nil, sortInsert, hHD, hXH]
    by_cases h : compareCredits momentYear creditNoDate creditDirector < 0
    · left; simp [h]
    · right; simp [h]
  have hfilter : (sort (compareCredits momentYear)
      [creditDirector, creditHero, creditNoDate]).filter (survives momentYear) =
        [creditDirector, creditHero] := by
    rcases hsort with h | h <;> rw [h] <;> simp [List.filter_cons, hD, hH, hX]
  have hout : filterCredits momentYear (sort (compareCredits momentYear)
      [creditDirector, creditHero, creditNoDate]) =
        { filteredMovies := [toNormalized momentYear creditDirector]
          filteredCredits :=
            [toNormalized momentYear creditDirector, toNormalized momentYear creditHero] } := by
    rw [filterCredits_eq, hfilter]
    simp [pushMovie, toNormalized, JSVal.strictEq, creditDirector, creditHero]
  refine ⟨?_, ?_, ?_, ?_, by decide, by decide, by decide, ?_⟩
  · rw [hout]; rfl
  · rw [hout]; rfl
  · rw [hout]; rfl
  · rw [hout]; rfl
  · intro sorted hp hsub
    have hperm : (sorted.filter (survives momentYear)).Perm [creditDirector, creditHero] := by
      have := List.Perm.filter (survives momentYear) hp
      simpa [List.filter_cons, hD, hH, hX] using this
    have hsub2 : List.Sublist [creditDirector, creditHero]
        (sorted.filter (survives momentYear)) := by
      have := List.Sublist.filter (survives momentYear) hsub
      simpa [List.filter_cons, hD, hH] using this
    have heq : [creditDirector, creditHero] = sorted.filter (survives momentYear) :=
      List.Sublist.eq_of_length hsub2 hperm.length_eq.symm
    rw [filterCredits_eq, ← heq]
    simp [pushMovie, toNormalized, JSVal.strictEq, creditDirector, creditHero]

/-! ## Calls that can raise -/

theorem filterLoopCall_objects (momentYear : JSVal → JSNum) (credits : List RawCredit) :
    ∀ acc : FilterResult,
      filterLoopCall momentYear acc (credits.map JSElement.object) =
        Except.ok (credits.foldl (filterStep momentYear) acc) := by
  induction credits with
  | nil => intro acc; rfl
  | cons d ds ih =>
    intro acc
    simp only [List.map_cons, filterLoopCall, filterStepCall, List.foldl_cons]
    exact ih _

theorem filterLoopCall_nullish (momentYear : JSVal → JSNum) (array : List JSElement)
    (x : JSElement) (hx : x ∈ array) (hn : x = JSElement.null ∨ x = JSElement.undefined) :
    ∀ acc : FilterResult,
      filterLoopCall momentYear acc array = Except.error JSError.typeError := by
  induction array with
  | nil => simp at hx
  | cons y ys ih =>
    intro acc
    cases y with
    | undefined => simp [filterLoopCall, filterStepCall]
    | null => simp [filterLoopCall, filterStepCall]
    | object d =>
      simp only [filterLoopCall, filterStepCall]
      apply ih
      rcases List.mem_cons.mp hx with h | h
      · rcases hn with hn | hn <;> rw [hn] at h <;> cases h
      · exact h

theorem sortInsertCall_objects (momentYear : JSVal → JSNum) (x : RawCredit)
    (ys : List RawCredit) :
    sortInsertCall (compareCreditsCall momentYear) (JSElement.object x)
        (ys.map JSElement.object) =
      Except.ok ((sortInsert (compareCredits momentYear) x ys).map JSElement.object) := by
  induction ys with
  | nil => rfl
  | cons y ys ih =>
    simp only [List.map_cons, sortInsertCall, compareCreditsCall, sortInsert]
    by_cases h : compareCredits momentYear x y < 0
    · simp [h]
    · simp [h, ih]

theorem sortLoopCall_objects (momentYear : JSVal → JSNum) (xs : List RawCredit) :
    ∀ sorted : List RawCredit,
      sortLoopCall (compareCreditsCall momentYear) (sorted.map JSElement.object)
          (xs.map JSElement.object) =
        Except.ok ((xs.foldl (fun sorted x => sortInsert (compareCredits momentYear) x sorted)
          sorted).map JSElement.object) := by
  induction xs with
  | nil => intro sorted; rfl
  | cons x xs ih =>
    intro sorted
    simp only [List.map_cons, sortLoopCall, sortInsertCall_objects, List.foldl_cons]
    exact ih _

theorem filter_objects (array : List RawCredit) :
    (array.map JSElement.object).filter (fun x => x != JSElement.undefined) =
        array.map JSElement.object ∧
      (array.map JSElement.object).filter (fun x => x == JSElement.undefined) = [] := by
  constructor
  · apply List.filter_eq_self.mpr
    intro x hx
    obtain ⟨d, _, rfl⟩ := List.mem_map.mp hx
    simp
  · apply List.filter_eq_nil_iff.mpr
    intro x hx
    obtain ⟨d, _, rfl⟩ := List.mem_map.mp hx
    simp

theorem sortCall_objects (momentYear : JSVal → JSNum) (array : List RawCredit) :
    sortCall (compareCreditsCall momentYear) (array.map JSElement.object) =
      Except.ok ((sort (compareCredits momentYear) array).map JSElement.object) := by
  have h := sortLoopCall_objects momentYear array []
  simp only [List.map_nil] at h
  simp only [sortCall, (filter_objects array).1, (filter_objects array).2, h, sort,
    List.append_nil]

theorem filterPersonCall_objects (momentYear : JSVal → JSNum) (argumentLimit : Nat)
    (crew cast : List RawCredit) (hcast : cast.length ≤ argumentLimit) :
    filterPersonCall momentYear argumentLimit (crew.map JSElement.object)
        (cast.map JSElement.object) =
      Except.ok
        { movies := (filterPerson momentYear { crew := crew, cast := cast }).movies
          credits := (filterPerson momentYear { crew := crew, cast := cast }).credits
          crew := (filterPerson momentYear { crew := crew, cast := cast }).movie_credits.crew.map
            JSElement.object } := by
  have hlim : ¬ argumentLimit < (cast.map JSElement.object).length := by
    simpa using hcast
  simp only [filterPersonCall, hlim, if_false, ← List.map_append, sortCall_objects,
    filterCreditsCall, filterLoopCall_objects]
  rfl

theorem filterPersonCall_long_cast (momentYear : JSVal → JSNum) (argumentLimit : Nat)
    (crew cast : List JSElement) (hcast : argumentLimit < cast.length) :
    filterPersonCall momentYear argumentLimit crew cast = Except.error JSError.rangeError := by
  simp [filterPersonCall, hcast]

theorem sortInsertCall_error (momentYear : JSVal → JSNum) (x : JSElement) (e : JSError) :
    ∀ ys : List JSElement,
      sortInsertCall (compareCreditsCall momentYear) x ys = Except.error e →
        e = JSError.typeError := by
  intro ys
  induction ys with
  | nil => intro h; simp [sortInsertCall] at h
  | cons y ys ih =>
    intro h
    simp only [sortInsertCall] at h
    cases hc : compareCreditsCall momentYear x y with
    | error e2 =>
      rw [hc] at h
      simp only [Except.error.injEq] at h
      subst h
      cases x <;> cases y <;> simp [compareCreditsCall] at hc <;> exact hc.symm
    | ok c =>
      rw [hc] at h
      simp only at h
      by_cases hlt : c < 0
      · simp [hlt] at h
      · simp only [hlt, if_false] at h
        cases hr : sortInsertCall (compareCreditsCall momentYear) x ys with
        | error e3 =>
          rw [hr] at h
          simp only [Except.error.injEq] at h
          subst h
          exact ih hr
        | ok r => rw [hr] at h; simp at h

theorem sortInsertCall_perm {α : Type} (compare : α → α → Except JSError Int) (x : α) :
    ∀ (ys r : List α), sortInsertCall compare x ys = Except.ok r → r.Perm (x :: ys) := by
  intro ys
  induction ys with
  | nil =>
    intro r h
    simp only [sortInsertCall, Except.ok.injEq] at h
    subst h
    exact List.Perm.refl _
  | cons y ys ih =>
    intro r h
    simp only [sortInsertCall] at h
    cases hc : compare x y with
    | error e2 => rw [hc] at h; simp at h
    | ok c =>
      rw [hc] at h
      simp only at h
      by_cases hlt : c < 0
      · simp only [hlt, if_true, Except.ok.injEq] at h
        subst h
        exact List.Perm.refl _
      · simp only [hlt, if_false] at h
        cases hr : sortInsertCall compare x ys with
        | error e3 => rw [hr] at h; simp at h
        | ok rest =>
          rw [hr] at h
          simp only [Except.ok.injEq] at h
          subst h
          exact ((ih rest hr).cons y).trans (List.Perm.swap x y ys)

theorem sortLoopCall_error (momentYear : JSVal → JSNum) (e : JSError) (xs : List JSElement) :
    ∀ sorted : List JSElement,
      sortLoopCall (compareCreditsCall momentYear) sorted xs = Except.error e →
        e = JSError.typeError := by
  induction xs with
  | nil => intro sorted h; simp [sortLoopCall] at h
  | cons x xs ih =>
    intro sorted h
    simp only [sortLoopCall] at h
    cases hr : sortInsertCall (compareCreditsCall momentYear) x sorted with
    | error e2 =>
      rw [hr] at h
      simp only [Except.error.injEq] at h
      subst h
      exact sortInsertCall_error momentYear x _ sorted hr
    | ok next =>
      rw [hr] at h
      exact ih next h

theorem sortLoopCall_perm {α : Type} (compare : α → α → Except JSError Int) (xs : List α) :
    ∀ (sorted r : List α), sortLoopCall compare sorted xs = Except.ok r →
      r.Perm (sorted ++ xs) := by
  induction xs with
  | nil =>
    intro sorted r h
    simp only [sortLoopCall, Except.ok.injEq] at h
    subst h
    simp
  | cons x xs ih =>
    intro sorted r h
    simp only [sortLoopCall] at h
    cases hr : sortInsertCall compare x sorted with
    | error e2 => rw [hr] at h; simp at h
    | ok next =>
      rw [hr] at h
      have h1 := ih next r h
      have h2 := sortInsertCall_perm compare x sorted next hr
      exact h1.trans ((h2.append_right xs).trans (by simpa using List.perm_middle.symm))

theorem sortCall_error (momentYear : JSVal → JSNum) (e : JSError) (array : List JSElement)
    (h : sortCall (compareCreditsCall momentYear) array = Except.error e) :
    e = JSError.typeError := by
  simp only [sortCall] at h
  cases hr : sortLoopCall (compareCreditsCall momentYear) []
      (array.filter (fun x => x != JSElement.undefined)) with
  | error e2 =>
    rw [hr] at h
    simp only [Except.error.injEq] at h
    subst h
    exact sortLoopCall_error momentYear _ _ [] hr
  | ok r => rw [hr] at h; simp at h

theorem sortCall_perm (compare : JSElement → JSElement → Except JSError Int)
    (array r : List JSElement) (h : sortCall compare array = Except.ok r) : r.Perm array := by
  simp only [sortCall] at h
  cases hr : sortLoopCall compare [] (array.filter (fun x => x != JSElement.undefined)) with
  | error e2 => rw [hr] at h; simp at h
  | ok sorted =>
    rw [hr] at h
    simp only [Except.ok.injEq] at h
    subst h
    have h1 := sortLoopCall_perm compare _ [] sorted hr
    simp only [List.nil_append] at h1
    have h2 : (array.filter (fun x => x != JSElement.undefined) ++
        array.filter (fun x => x == JSElement.undefined)).Perm array := by
      have hf : (fun x : JSElement => !(x != JSElement.undefined)) =
          (fun x => x == JSElement.undefined) := by
        funext x
        simp [bne]
      have := List.filter_append_perm (fun x => x != JSElement.undefined) array
      rwa [hf] at this
    exact (h1.append_right _).trans h2

theorem filterPersonCall_nullish (momentYear : JSVal → JSNum) (argumentLimit : Nat)
    (crew cast : List JSElement) (hcast : cast.length ≤ argumentLimit) (x : JSElement)
    (hx : x ∈ crew ++ cast) (hn : x = JSElement.null ∨ x = JSElement.undefined) :
    filterPersonCall momentYear argumentLimit crew cast = Except.error JSError.typeError := by
  have hlim : ¬ argumentLimit < cast.length := by omega
  simp only [filterPersonCall, hlim, if_false]
  cases hs : sortCall (compareCreditsCall momentYear) (crew ++ cast) with
  | error e =>
    simp only
    rw [sortCall_error momentYear e _ hs]
  | ok credits =>
    simp only
    have hmem : x ∈ credits := (sortCall_perm _ _ _ hs).symm.subset hx
    rw [filterCreditsCall, filterLoopCall_nullish momentYear credits x hmem hn]
/-- C9, as stated, fails for the pipeline of `filterPerson`: `crews.push(...casts)`
passes the whole cast as the arguments of one call, and an engine that accepts
`65536` arguments in a call raises a RangeError on `rawData.movie_credits` with an
empty crew and a cast of `65537` copies of the well-formed entry `creditHero`,
although `filterCredits` itself returns on these entries. Whatever the number of
arguments the engine accepts, a cast with more entries makes `filterPerson` raise. -/
theorem filterPerson_raises_on_long_cast :
    filterPersonCall exampleYear 65536 []
        (List.replicate 65537 (JSElement.object creditHero)) =
        Except.error JSError.rangeError ∧
      filterCreditsCall exampleYear (List.replicate 65537 (JSElement.object creditHero)) =
        Except.ok (filterCredits exampleYear (List.replicate 65537 creditHero)) ∧
      (∀ (momentYear : JSVal → JSNum) (argumentLimit : Nat) (crew cast : List JSElement),
        argumentLimit < cast.length →
        filterPersonCall momentYear argumentLimit crew cast =
          Except.error JSError.rangeError) := by
  refine ⟨?_, ?_, ?_⟩
  · exact filterPersonCall_long_cast exampleYear 65536 [] _
      (by rw [List.length_replicate]; omega)
  · rw [← List.map_replicate]
    exact filterLoopCall_objects exampleYear _ _
  · intro momentYear argumentLimit crew cast h
    exact filterPersonCall_long_cast momentYear argumentLimit crew cast h

/-- C9, amended: `filterCredits` has no failure mode on a sequence of credit
entries, and neither has the sort-then-filter pipeline of `filterPerson` when the
cast holds no more entries than the engine accepts as arguments of one call. For
every list of entries (objects), whatever is missing, `null` or empty in their
fields, `filterCredits` returns its pair of lists without raising, and so does the
pipeline on every crew and every cast of at most `argumentLimit` entries; the full
list holds the normalised surviving entries in order (for the pipeline: those of
the sorted array, as many as survive among crew and cast, each of them present) and
the movie list is its first-occurrence-by-id part; every role in the outputs is a
truthy value, a cast entry whose character is missing, `null` or empty is shown
with role `'?'`, and the entries with every field missing, `null` or empty are
handled like any other. What does raise is an array element that is no object: a
`null` or `undefined` element raises a TypeError in both. -/
theorem filterCreditsCall_returns (momentYear : JSVal → JSNum) (argumentLimit : Nat)
    (credits crew cast : List RawCredit) (hcast : cast.length ≤ argumentLimit) :
    filterCreditsCall momentYear (credits.map JSElement.object) =
        Except.ok (filterCredits momentYear credits) ∧
      filterPersonCall momentYear argumentLimit (crew.map JSElement.object)
          (cast.map JSElement.object) =
        Except.ok
          { movies := (filterPerson momentYear { crew := crew, cast := cast }).movies
            credits := (filterPerson momentYear { crew := crew, cast := cast }).credits
            crew := (filterPerson momentYear
              { crew := crew, cast := cast }).movie_credits.crew.map JSElement.object } ∧
      ((filterCredits momentYear credits).filteredCredits =
          (credits.filter (survives momentYear)).map (toNormalized momentYear) ∧
        (filterCredits momentYear credits).filteredMovies =
          firstById (filterCredits momentYear credits).filteredCredits) ∧
      ((filterPerson momentYear { crew := crew, cast := cast }).credits =
          ((sort (compareCredits momentYear) (crew ++ cast)).filter
            (survives momentYear)).map (toNormalized momentYear) ∧
        (filterPerson momentYear { crew := crew, cast := cast }).movies =
          firstById (filterPerson momentYear { crew := crew, cast := cast }).credits ∧
        (filterPerson momentYear { crew := crew, cast := cast }).credits.length =
          ((crew ++ cast).filter (survives momentYear)).length ∧
        (∀ d ∈ crew ++ cast, survives momentYear d = true →
          toNormalized momentYear d ∈
            (filterPerson momentYear { crew := crew, cast := cast }).credits)) ∧
      ((∀ fd ∈ (filterCredits momentYear credits).filteredCredits, fd.role.truthy = true) ∧
        (∀ fd ∈ (filterCredits momentYear credits).filteredMovies, fd.role.truthy = true) ∧
        (∀ fd ∈ (filterPerson momentYear { crew := crew, cast := cast }).credits,
          fd.role.truthy = true) ∧
        (∀ fd ∈ (filterPerson momentYear { crew := crew, cast := cast }).movies,
          fd.role.truthy = true)) ∧
      (∀ d ∈ credits, d.job = none → getYear momentYear d.release_date ≠ none →
        (d.character = JSVal.undefined ∨ d.character = JSVal.null
          ∨ d.character = JSVal.str "") →
        (toNormalized momentYear d).role = JSVal.str "?" ∧
          toNormalized momentYear d ∈ (filterCredits momentYear credits).filteredCredits) ∧
      filterCreditsCall momentYear [JSElement.object creditAllMissing] =
        Except.ok
          { filteredMovies :=
              [{ id := JSVal.undefined, title := JSVal.undefined,
                 poster := JSVal.str "https://image.tmdb.org/t/p/w500undefined",
                 rate := JSVal.undefined, releaseYear := some (momentYear JSVal.undefined),
                 role := JSVal.str "?" }]
            filteredCredits :=
              [{ id := JSVal.undefined, title := JSVal.undefined,
                 poster := JSVal.str "https://image.tmdb.org/t/p/w500undefined",
                 rate := JSVal.undefined, releaseYear := some (momentYear JSVal.undefined),
                 role := JSVal.str "?" }] } ∧
      filterCreditsCall momentYear [JSElement.object creditAllNull] =
        Except.ok { filteredMovies := [], filteredCredits := [] } ∧
      filterCreditsCall momentYear [JSElement.object creditAllEmpty] =
        Except.ok { filteredMovies := [], filteredCredits := [] } ∧
      (∀ (array : List JSElement) (x : JSElement), x ∈ array →
        (x = JSElement.null ∨ x = JSElement.undefined) →
        filterCreditsCall momentYear array = Except.error JSError.typeError) ∧
      (∀ (crewArray castArray : List JSElement) (x : JSElement),
        castArray.length ≤ argumentLimit → x ∈ crewArray ++ castArray →
        (x = JSElement.null ∨ x = JSElement.undefined) →
        filterPersonCall momentYear argumentLimit crewArray castArray =
          Except.error JSError.typeError) := by
  have hroles : ∀ l : List RawCredit,
      (∀ fd ∈ (filterCredits momentYear l).filteredCredits, fd.role.truthy = true) ∧
      (∀ fd ∈ (filterCredits momentYear l).filteredMovies, fd.role.truthy = true) := by
    intro l
    have hc : ∀ fd ∈ (filterCredits momentYear l).filteredCredits, fd.role.truthy = true := by
      intro fd hfd
      rw [filterCredits_eq] at hfd
      obtain ⟨x, _, rfl⟩ := List.mem_map.mp hfd
      exact roleOf_truthy x
    refine ⟨hc, ?_⟩
    intro fd hfd
    rw [filteredMovies_eq_firstById] at hfd
    exact hc fd ((firstById_sublist _).subset hfd)
  have hcall : ∀ l : List RawCredit, filterCreditsCall momentYear (l.map JSElement.object) =
      Except.ok (filterCredits momentYear l) := fun l => filterLoopCall_objects momentYear l _
  have hperm := sort_perm (compareCredits momentYear) (crew ++ cast)
  have hcredits : (filterPerson momentYear { crew := crew, cast := cast }).credits =
      ((sort (compareCredits momentYear) (crew ++ cast)).filter
        (survives momentYear)).map (toNormalized momentYear) := by
    simp only [filterPerson]
    rw [filterCredits_eq]
  refine ⟨hcall credits, filterPersonCall_objects momentYear argumentLimit crew cast hcast,
    ⟨?_, filteredMovies_eq_firstById momentYear credits⟩,
    ⟨hcredits, filteredMovies_eq_firstById momentYear _, ?_, ?_⟩,
    ⟨(hroles credits).1, (hroles credits).2, (hroles _).1, (hroles _).2⟩,
    ?_, ?_, ?_, ?_, ?_, ?_⟩
  · rw [filterCredits_eq]
  · rw [hcredits, List.length_map]
    exact (hperm.filter _).length_eq
  · intro d hd hs
    rw [hcredits]
    exact List.mem_map.mpr ⟨d, List.mem_filter.mpr ⟨hperm.symm.subset hd, hs⟩, rfl⟩
  · intro d hd hjob hyear hchar
    constructor
    · rcases hchar with h | h | h <;> simp [toNormalized, roleOf, hjob, h, JSVal.or, JSVal.truthy]
    · rw [filterCredits_eq]
      exact List.mem_map.mpr ⟨d, List.mem_filter.mpr
        ⟨hd, (survives_iff momentYear d).mpr ⟨hyear, Or.inl hjob⟩⟩, rfl⟩
  · have hs : survives momentYear creditAllMissing = true := by
      simp [survives, getYear, JSVal.strictEq, creditAllMissing]
    rw [← List.map_singleton, hcall, filterCredits_eq]
    simp only [List.filter_cons, hs, if_true, List.filter_nil, List.map_cons, List.map_nil,
      List.foldl_cons, List.foldl_nil]
    simp [pushMovie, toNormalized, roleOf, creditAllMissing, getYear, JSVal.strictEq,
      JSVal.or, JSVal.truthy, getPosterURL, JSVal.toStr, POSTER_URL]
  · have hs : survives momentYear creditAllNull = false := by
      simp [survives, getYear, JSVal.strictEq, creditAllNull]
    rw [← List.map_singleton, hcall, filterCredits_eq]
    simp [List.filter_cons, hs]
  · have hs : survives momentYear creditAllEmpty = false := by
      simp [survives, getYear, JSVal.strictEq, creditAllEmpty]
    rw [← List.map_singleton, hcall, filterCredits_eq]
    simp [List.filter_cons, hs]
  · intro array x hx hn
    exact filterLoopCall_nullish momentYear array x hx hn _
  · intro crewArray castArray x hlen hx hn
    exact filterPersonCall_nullish momentYear argumentLimit crewArray castArray hlen x hx hn
/-- Witness of C9: the entries `[creditAllMissing, creditHero]`, and the crew
`[credit2010]` with the cast `[creditHero]`, on an engine that accepts `65536`
arguments in a call. -/
theorem filterCreditsCall_returns_witness :
    filterCreditsCall exampleYear ([creditAllMissing, creditHero].map JSElement.object) =
        Except.ok (filterCredits exampleYear [creditAllMissing, creditHero]) ∧
      filterPersonCall exampleYear 65536 ([credit2010].map JSElement.object)
          ([creditHero].map JSElement.object) =
        Except.ok
          { movies := (filterPerson exampleYear { crew := [credit2010], cast := [creditHero] }).movies
            credits := (filterPerson exampleYear { crew := [credit2010], cast := [creditHero] }).credits
            crew := (filterPerson exampleYear
              { crew := [credit2010], cast := [creditHero] }).movie_credits.crew.map JSElement.object } ∧
      ((filterCredits exampleYear [creditAllMissing, creditHero]).filteredCredits =
          ([creditAllMissing, creditHero].filter (survives exampleYear)).map (toNormalized exampleYear) ∧
        (filterCredits exampleYear [creditAllMissing, creditHero]).filteredMovies =
          firstById (filterCredits exampleYear [creditAllMissing, creditHero]).filteredCredits) ∧
      ((filterPerson exampleYear { crew := [credit2010], cast := [creditHero] }).credits =
          ((sort (compareCredits exampleYear) ([credit2010] ++ [creditHero])).filter
            (survives exampleYear)).map (toNormalized exampleYear) ∧
        (filterPerson exampleYear { crew := [credit2010], cast := [creditHero] }).movies =
          firstById (filterPerson exampleYear { crew := [credit2010], cast := [creditHero] }).credits ∧
        (filterPerson exampleYear { crew := [credit2010], cast := [creditHero] }).credits.length =
          (([credit2010] ++ [creditHero]).filter (survives exampleYear)).length ∧
        (∀ d ∈ [credit2010] ++ [creditHero], survives exampleYear d = true →
          toNormalized exampleYear d ∈
            (filterPerson exampleYear { crew := [credit2010], cast := [creditHero] }).credits)) ∧
      ((∀ fd ∈ (filterCredits exampleYear [creditAllMissing, creditHero]).filteredCredits, fd.role.truthy = true) ∧
        (∀ fd ∈ (filterCredits exampleYear [creditAllMissing, creditHero]).filteredMovies, fd.role.truthy = true) ∧
        (∀ fd ∈ (filterPerson exampleYear { crew := [credit2010], cast := [creditHero] }).credits,
          fd.role.truthy = true) ∧
        (∀ fd ∈ (filterPerson exampleYear { crew := [credit2010], cast := [creditHero] }).movies,
          fd.role.truthy = true)) ∧
      (∀ d ∈ [creditAllMissing, creditHero], d.job = none → getYear exampleYear d.release_date ≠ none →
        (d.character = JSVal.undefined ∨ d.character = JSVal.null
          ∨ d.character = JSVal.str "") →
        (toNormalized exampleYear d).role = JSVal.str "?" ∧
          toNormalized exampleYear d ∈ (filterCredits exampleYear [creditAllMissing, creditHero]).filteredCredits) ∧
      filterCreditsCall exampleYear [JSElement.object creditAllMissing] =
        Except.ok
          { filteredMovies :=
              [{ id := JSVal.undefined, title := JSVal.undefined,
                 poster := JSVal.str "https://image.tmdb.org/t/p/w500undefined",
                 rate := JSVal.undefined, releaseYear := some (exampleYear JSVal.undefined),
                 role := JSVal.str "?" }]
            filteredCredits :=
              [{ id := JSVal.undefined, title := JSVal.undefined,
                 poster := JSVal.str "https://image.tmdb.org/t/p/w500undefined",
                 rate := JSVal.undefined, releaseYear := some (exampleYear JSVal.undefined),
                 role := JSVal.str "?" }] } ∧
      filterCreditsCall exampleYear [JSElement.object creditAllNull] =
        Except.ok { filteredMovies := [], filteredCredits := [] } ∧
      filterCreditsCall exampleYear [JSElement.object creditAllEmpty] =
        Except.ok { filteredMovies := [], filteredCredits := [] } ∧
      (∀ (array : List JSElement) (x : JSElement), x ∈ array →
        (x = JSElement.null ∨ x = JSElement.undefined) →
        filterCreditsCall exampleYear array = Except.error JSError.typeError) ∧
      (∀ (crewArray castArray : List JSElement) (x : JSElement),
        castArray.length ≤ 65536 → x ∈ crewArray ++ castArray →
        (x = JSElement.null ∨ x = JSElement.undefined) →
        filterPersonCall exampleYear 65536 crewArray castArray =
          Except.error JSError.typeError) :=
  filterCreditsCall_returns exampleYear 65536 [creditAllMissing, creditHero] [credit2010]
    [creditHero] (by decide)

/-! ## The image-URL builders -/

/-- C10: each image-URL builder returns `null` when the path is `null` and
otherwise its fixed base URL followed by the path unchanged: `getBackdropURL`
prefixes `https://image.tmdb.org/t/p/w1280`, `getPosterURL`
`https://image.tmdb.org/t/p/w500` and `getProfileURL`
`https://image.tmdb.org/t/p/h632`; a result that is not `null` is a string that
starts with the base URL and ends with the path. -/
theorem imageURL_builders (path : String) :
    (getBackdropURL JSVal.null = JSVal.null ∧ getPosterURL JSVal.null = JSVal.null ∧
        getProfileURL JSVal.null = JSVal.null) ∧
      (getBackdropURL (JSVal.str path) =
          JSVal.str ("https://image.tmdb.org/t/p/w1280" ++ path) ∧
        getPosterURL (JSVal.str path) =
          JSVal.str ("https://image.tmdb.org/t/p/w500" ++ path) ∧
        getProfileURL (JSVal.str path) =
          JSVal.str ("https://image.tmdb.org/t/p/h632" ++ path)) ∧
      (∀ (value : JSVal) (result : String), getBackdropURL value = JSVal.str result →
        value ≠ JSVal.null ∧ BACKDROP_URL.data <+: result.data ∧
          value.toStr.data <:+ result.data) ∧
      (∀ (value : JSVal) (result : String), getPosterURL value = JSVal.str result →
        value ≠ JSVal.null ∧ POSTER_URL.data <+: result.data ∧
          value.toStr.data <:+ result.data) ∧
      (∀ (value : JSVal) (result : String), getProfileURL value = JSVal.str result →
        value ≠ JSVal.null ∧ PROFILE_URL.data <+: result.data ∧
          value.toStr.data <:+ result.data) ∧
      (∀ value : JSVal, value ≠ JSVal.null →
        getBackdropURL value = JSVal.str (BACKDROP_URL ++ value.toStr) ∧
        getPosterURL value = JSVal.str (POSTER_URL ++ value.toStr) ∧
        getProfileURL value = JSVal.str (PROFILE_URL ++ value.toStr)) ∧
      (JSVal.str path).toStr = path := by
  refine ⟨⟨rfl, rfl, rfl⟩, ⟨?_, ?_, ?_⟩, ?_, ?_, ?_, ?_, rfl⟩
  · simp [getBackdropURL, JSVal.strictEq, JSVal.toStr, BACKDROP_URL]
  · simp [getPosterURL, JSVal.strictEq, JSVal.toStr, POSTER_URL]
  · simp [getProfileURL, JSVal.strictEq, JSVal.toStr, PROFILE_URL]
  · intro value result h
    by_cases hv : value = JSVal.null
    · subst hv; simp [getBackdropURL, JSVal.strictEq] at h
    · simp only [getBackdropURL, JSVal.strictEq, hv, decide_False, Bool.false_eq_true,
        if_false, JSVal.str.injEq] at h
      subst h
      exact ⟨hv, by simp [String.data_append], by simp [String.data_append]⟩
  · intro value result h
    by_cases hv : value = JSVal.null
    · subst hv; simp [getPosterURL, JSVal.strictEq] at h
    · simp only [getPosterURL, JSVal.strictEq, hv, decide_False, Bool.false_eq_true,
        if_false, JSVal.str.injEq] at h
      subst h
      exact ⟨hv, by simp [String.data_append], by simp [String.data_append]⟩
  · intro value result h
    by_cases hv : value = JSVal.null
    · subst hv; simp [getProfileURL, JSVal.strictEq] at h
    · simp only [getProfileURL, JSVal.strictEq, hv, decide_False, Bool.false_eq_true,
        if_false, JSVal.str.injEq] at h
      subst h
      exact ⟨hv, by simp [String.data_append], by simp [String.data_append]⟩
  · intro value hv
    simp [getBackdropURL, getPosterURL, getProfileURL, JSVal.strictEq, hv]

/-! ## The comparator and the caller's arrays -/

/-- The value `compareCredits` compares, in terms of the resolved year: the
resolved year itself when it is a non-zero number, `5000` when it is `0` or `NaN`. -/
theorem yearOrSentinel_resolvedYear (momentYear : JSVal → JSNum) (a : RawCredit) :
    yearOrSentinel (getYear momentYear a.release_date) =
      if (resolvedYear momentYear a).truthy then resolvedYear momentYear a
      else JSNum.int 5000 := by
  by_cases h : a.release_date = JSVal.null ∨ a.release_date = JSVal.str ""
  · simp [resolvedYear, h, yearOrSentinel, getYear_null_or_empty momentYear a.release_date h,
      JSNum.truthy]
  · have hg : getYear momentYear a.release_date = some (momentYear a.release_date) := by
      have h1 : a.release_date ≠ JSVal.null := fun e => h (Or.inl e)
      have h2 : a.release_date ≠ JSVal.str "" := fun e => h (Or.inr e)
      simp [getYear, JSVal.strictEq, h1, h2]
    simp [resolvedYear, h, yearOrSentinel, hg]

/-- C12, the code at a failing input: the release date `"0000-01-01"` of
`creditYearZero` is neither `null` nor empty, so its resolved year is the year `0`,
and that of `credit2010` is `2010`. `0` is not greater than `2010`, yet
`compareCredits(creditYearZero, credit2010)` is `-1`; in the other order it is `1`
although `2010` is greater than `0`. The expression `getYear(...) || 5000` takes the
falsy year for the sentinel `5000`; the same happens with a date moment cannot read
(year `NaN`). In general an entry whose resolved year is `0` or `NaN` is compared
as if its year were `5000`. Apart from that the comparator is as the claim says:
it returns `-1` or `1` and never `0`, a `null` or empty release date resolves to
`5000`, and for entries whose resolved years are non-zero numbers it returns `-1`
exactly when the resolved year of `a` is strictly greater than that of `b`, `1`
otherwise, and `1` in both orders when the resolved years are equal. -/
theorem compareCredits_falsy_year :
    resolvedYear exampleYear creditYearZero = JSNum.int 0 ∧
      resolvedYear exampleYear credit2010 = JSNum.int 2010 ∧
      (resolvedYear exampleYear creditYearZero).gt (resolvedYear exampleYear credit2010)
        = false ∧
      compareCredits exampleYear creditYearZero credit2010 = -1 ∧
      (resolvedYear exampleYear credit2010).gt (resolvedYear exampleYear creditYearZero)
        = true ∧
      compareCredits exampleYear credit2010 creditYearZero = 1 ∧
      resolvedYear exampleYear creditBadDate = JSNum.nan ∧
      (resolvedYear exampleYear creditBadDate).gt (resolvedYear exampleYear credit2010)
        = false ∧
      compareCredits exampleYear creditBadDate credit2010 = -1 ∧
      (∀ (momentYear : JSVal → JSNum) (a b : RawCredit) (m : Int),
        (resolvedYear momentYear a).truthy = false →
        resolvedYear momentYear b = JSNum.int m → m ≠ 0 →
        (compareCredits momentYear a b = -1 ↔ m < 5000) ∧
        (compareCredits momentYear b a = -1 ↔ 5000 < m)) ∧
      (∀ (momentYear : JSVal → JSNum) (a b : RawCredit),
        (compareCredits momentYear a b = -1 ∨ compareCredits momentYear a b = 1) ∧
        compareCredits momentYear a b ≠ 0) ∧
      (∀ (momentYear : JSVal → JSNum) (a : RawCredit),
        (a.release_date = JSVal.null ∨ a.release_date = JSVal.str "") →
        resolvedYear momentYear a = JSNum.int 5000 ∧
        yearOrSentinel (getYear momentYear a.release_date) = JSNum.int 5000) ∧
      (∀ (momentYear : JSVal → JSNum) (a b : RawCredit),
        (resolvedYear momentYear a).truthy = true →
        (resolvedYear momentYear b).truthy = true →
        (compareCredits momentYear a b = -1 ↔
          (resolvedYear momentYear a).gt (resolvedYear momentYear b) = true) ∧
        (compareCredits momentYear a b = 1 ↔
          (resolvedYear momentYear a).gt (resolvedYear momentYear b) = false) ∧
        (resolvedYear momentYear a = resolvedYear momentYear b →
          compareCredits momentYear a b = 1 ∧ compareCredits momentYear b a = 1)) := by
  refine ⟨by decide, by decide, by decide, by decide, by decide, by decide, by decide,
    by decide, by decide, ?_, ?_, ?_, ?_⟩
  · intro momentYear a b m ha hb hm
    have hbt : (resolvedYear momentYear b).truthy = true := by
      simp [hb, JSNum.truthy, hm]
    have hya := yearOrSentinel_resolvedYear momentYear a
    have hyb := yearOrSentinel_resolvedYear momentYear b
    rw [ha] at hya
    rw [hbt, hb] at hyb
    simp only [Bool.false_eq_true, if_false, if_true] at hya hyb
    simp only [compareCredits, hya, hyb, JSNum.gt]
    constructor
    · by_cases h : m < 5000 <;> simp [h]
    · by_cases h : 5000 < m <;> simp [h]
  · intro momentYear a b
    simp only [compareCredits]
    cases (yearOrSentinel (getYear momentYear a.release_date)).gt
      (yearOrSentinel (getYear momentYear b.release_date)) <;> simp
  · intro momentYear a h
    exact ⟨by simp [resolvedYear, h],
      by simp [yearOrSentinel, getYear_null_or_empty momentYear a.release_date h]⟩
  · intro momentYear a b ha hb
    have hya := yearOrSentinel_resolvedYear momentYear a
    have hyb := yearOrSentinel_resolvedYear momentYear b
    rw [ha] at hya
    rw [hb] at hyb
    simp only [if_true] at hya hyb
    simp only [compareCredits, hya, hyb]
    refine ⟨?_, ?_, ?_⟩
    · cases (resolvedYear momentYear a).gt (resolvedYear momentYear b) <;> simp
    · cases (resolvedYear momentYear a).gt (resolvedYear momentYear b) <;> simp
    · intro h
      rw [h]
      have hirr : (resolvedYear momentYear b).gt (resolvedYear momentYear b) = false := by
        cases resolvedYear momentYear b <;> simp [JSNum.gt]
      simp [hirr]

/-- C13: `filterPerson` changes the caller's data. After the call the crew array
of `rawData.movie_credits` holds every original crew entry and every cast entry:
its length is the crew length plus the cast length and it is a permutation of the
original crew followed by the cast; the cast array is as it was. -/
theorem filterPerson_mutates_crew (momentYear : JSVal → JSNum) (crew cast : List RawCredit) :
    (filterPerson momentYear { crew := crew, cast := cast }).movie_credits.crew.length =
        crew.length + cast.length ∧
      (filterPerson momentYear { crew := crew, cast := cast }).movie_credits.crew.Perm
        (crew ++ cast) ∧
      (∀ d ∈ crew,
        d ∈ (filterPerson momentYear { crew := crew, cast := cast }).movie_credits.crew) ∧
      (∀ d ∈ cast,
        d ∈ (filterPerson momentYear { crew := crew, cast := cast }).movie_credits.crew) ∧
      (filterPerson momentYear { crew := crew, cast := cast }).movie_credits.cast = cast := by
  have hperm : (filterPerson momentYear { crew := crew, cast := cast }).movie_credits.crew.Perm
      (crew ++ cast) := sort_perm (compareCredits momentYear) (crew ++ cast)
  refine ⟨?_, hperm, ?_, ?_, rfl⟩
  · simpa using hperm.length_eq
  · intro d hd
    exact hperm.symm.subset (List.mem_append_left cast hd)
  · intro d hd
    exact hperm.symm.subset (List.mem_append_right crew hd)

/-! ## Request URLs -/

theorem foldl_push_map {α β : Type} (f : α → β) (xs : List α) :
    ∀ acc : List β, xs.foldl (fun acc x => acc ++ [f x]) acc = acc ++ xs.map f := by
  induction xs with
  | nil => intro acc; simp
  | cons x xs ih => intro acc; simp [ih]

theorem join_cons (sep s : String) (rest : List String) (h : rest ≠ []) :
    join sep (s :: rest) = s ++ sep ++ join sep rest := by
  cases rest with
  | nil => exact absurd rfl h
  | cons t rest => rfl

theorem join_append (sep : String) (xs ys : List String) (hx : xs ≠ []) (hy : ys ≠ []) :
    join sep (xs ++ ys) = join sep xs ++ sep ++ join sep ys := by
  induction xs with
  | nil => exact absurd rfl hx
  | cons x xs ih =>
    cases xs with
    | nil =>
      simp only [List.singleton_append, join]
      exact join_cons sep x ys hy
    | cons t xs =>
      have h1 : join sep (x :: t :: xs ++ ys) = x ++ sep ++ join sep (t :: xs ++ ys) :=
        join_cons sep x (t :: xs ++ ys) (by simp)
      rw [h1, ih (by simp)]
      simp only [join, String.append_assoc]

theorem requestURL_eq (apiKey endpoint : JSVal) (params : Option (List Param)) :
    requestURL apiKey endpoint params =
      { url := URL ++ endpoint.toStr ++ "?" ++
          join "&" ((params.getD [] ++ defaultParams apiKey).map paramString)
        params := params.getD [] ++ defaultParams apiKey } := by
  cases params with
  | none => simp [requestURL, foldl_push_map, defaultParams]
  | some array => simp [requestURL, foldl_push_map, defaultParams]

theorem defaultParams_strings (apiKey : JSVal) :
    (defaultParams apiKey).map paramString =
      ["api_key=" ++ apiKey.toStr, "include_adult=false", "include_video=false"] := by
  have h2 : paramString { key := JSVal.str "include_adult", val := JSVal.bool false } =
      "include_adult=false" := by decide
  have h3 : paramString { key := JSVal.str "include_video", val := JSVal.bool false } =
      "include_video=false" := by decide
  simp only [defaultParams, List.map_cons, List.map_nil, h2, h3]
  rfl

/-- C11: for every endpoint and every list of extra parameters, `requestURL`
returns `https://api.themoviedb.org/3`, the endpoint, `?` and the `key=val` pairs
joined with `&`: the caller's pairs in their order, then always
`api_key=<configured key>`, `include_adult=false` and `include_video=false` in
that order. `null` is treated as the empty list, and with `null` or empty
parameters the query string is exactly those three pairs. -/
theorem requestURL_query (apiKey endpoint : JSVal) (params : List Param) :
    (requestURL apiKey endpoint (some params)).url =
        "https://api.themoviedb.org/3" ++ endpoint.toStr ++ "?" ++
          join "&" (params.map paramString ++
            ["api_key=" ++ apiKey.toStr, "include_adult=false", "include_video=false"]) ∧
      (∀ param : Param, paramString param = param.key.toStr ++ "=" ++ param.val.toStr) ∧
      (∀ text : String, (JSVal.str text).toStr = text) ∧
      (requestURL apiKey endpoint none).url = (requestURL apiKey endpoint (some [])).url ∧
      (requestURL apiKey endpoint (some [])).url =
        "https://api.themoviedb.org/3" ++ endpoint.toStr ++ "?" ++
          ("api_key=" ++ apiKey.toStr ++ "&" ++ "include_adult=false" ++ "&" ++
            "include_video=false") := by
  refine ⟨?_, fun _ => rfl, fun _ => rfl, ?_, ?_⟩
  · rw [requestURL_eq]
    simp only [Option.getD_some, List.map_append, defaultParams_strings, URL]
  · rw [requestURL_eq, requestURL_eq]
    rfl
  · rw [requestURL_eq]
    show URL ++ endpoint.toStr ++ "?" ++ join "&" ((defaultParams apiKey).map paramString) = _
    rw [defaultParams_strings]
    simp only [URL, join, String.append_assoc]

/-- C18: `requestURL` pushes its three default parameters onto the caller's own
array: after a call with an array of length `k` the array holds the caller's
parameters followed by the three defaults and has length `k + 3`. Calling
`requestURL` a second time with the same array therefore returns a URL whose query
string is the one of the first call followed by `&` and the three default pairs
again, so that `api_key`, `include_adult` and `include_video` are there twice each,
and the two URLs differ. -/
theorem requestURL_mutates_params (apiKey endpoint : JSVal) (params : List Param) :
    (requestURL apiKey endpoint (some params)).params = params ++ defaultParams apiKey ∧
      (requestURL apiKey endpoint (some params)).params.length = params.length + 3 ∧
      (requestURL apiKey endpoint (some (requestURL apiKey endpoint (some params)).params)).url =
        URL ++ endpoint.toStr ++ "?" ++
          join "&" (params.map paramString ++
            ["api_key=" ++ apiKey.toStr, "include_adult=false", "include_video=false",
             "api_key=" ++ apiKey.toStr, "include_adult=false", "include_video=false"]) ∧
      (requestURL apiKey endpoint (some (requestURL apiKey endpoint (some params)).params)).url =
        (requestURL apiKey endpoint (some params)).url ++ "&" ++
          join "&" ["api_key=" ++ apiKey.toStr, "include_adult=false", "include_video=false"] ∧
      (requestURL apiKey endpoint (some (requestURL apiKey endpoint (some params)).params)).url ≠
        (requestURL apiKey endpoint (some params)).url := by
  have hp : (requestURL apiKey endpoint (some params)).params =
      params ++ defaultParams apiKey := by rw [requestURL_eq]; rfl
  have hu1 : (requestURL apiKey endpoint (some params)).url =
      URL ++ endpoint.toStr ++ "?" ++ join "&" (params.map paramString ++
        ["api_key=" ++ apiKey.toStr, "include_adult=false", "include_video=false"]) := by
    rw [requestURL_eq]
    simp only [Option.getD_some, List.map_append, defaultParams_strings]
  have hu2 : (requestURL apiKey endpoint
      (some (requestURL apiKey endpoint (some params)).params)).url =
      URL ++ endpoint.toStr ++ "?" ++ join "&" ((params.map paramString ++
        ["api_key=" ++ apiKey.toStr, "include_adult=false", "include_video=false"]) ++
        ["api_key=" ++ apiKey.toStr, "include_adult=false", "include_video=false"]) := by
    rw [hp, requestURL_eq]
    simp only [Option.getD_some, List.map_append, defaultParams_strings]
  have hsplit : (requestURL apiKey endpoint
      (some (requestURL apiKey endpoint (some params)).params)).url =
      (requestURL apiKey endpoint (some params)).url ++ "&" ++
        join "&" ["api_key=" ++ apiKey.toStr, "include_adult=false", "include_video=false"] := by
    rw [hu2, hu1, join_append "&" _ _ (by simp) (by simp)]
    simp only [String.append_assoc]
  refine ⟨hp, ?_, ?_, hsplit, ?_⟩
  · rw [hp]
    simp [defaultParams]
  · rw [hu2]
    simp
  · intro h
    have hlen := congrArg String.length h
    rw [hsplit] at hlen
    simp only [String.length_append] at hlen
    have h1 : ("&" : String).length = 1 := by decide
    omega

/-! ## Numbers below `2^53` -/

theorem natToString_safe (v : Nat) (h : v < 2 ^ 53) :
    natToString v = String.mk (Nat.toDigits 10 v) := by
  have hlen : (Nat.toDigits 10 v).length ≤ 21 :=
    Nat.toDigitsCore_length 10 (by decide) (v + 1) v 21
      (lt_of_lt_of_le h (by norm_num)) (by decide)
  simp only [natToString, toDouble, shortestDecimal, h, if_true, hlen]

theorem numberToString_safe (v : Nat) (h : v < 2 ^ 53) :
    numberToString (v : Int) = String.mk (Nat.toDigits 10 v) := by
  have h0 : ¬ (v : Int) < 0 := by omega
  simp only [numberToString, h0, if_false, Int.toNat_ofNat]
  exact natToString_safe v h

theorem intToDouble_safe (v : Nat) (h : v < 2 ^ 53) : intToDouble (v : Int) = (v : Int) := by
  have h0 : ¬ (v : Int) < 0 := by omega
  simp only [intToDouble, h0, if_false, Int.toNat_ofNat, toDouble, h, if_true]

theorem roundDiv_bounds (a b : Nat) :
    a / b ≤ roundDiv a b ∧ roundDiv a b ≤ a / b + 1 ∧
      (roundDiv a b = a / b + 1 → b ≤ 2 * (a % b)) := by
  unfold roundDiv
  simp only
  split
  · omega
  · split
    · omega
    · split <;> omega

theorem log2FloorFuel_le (fuel : Nat) :
    ∀ v m : Nat, v < 2 ^ (m + 1) → log2FloorFuel fuel v ≤ m := by
  induction fuel with
  | zero => intro v m _; simp [log2FloorFuel]
  | succ f ih =>
    intro v m h
    simp only [log2FloorFuel]
    split
    · omega
    · rename_i h2
      cases m with
      | zero => simp at h; omega
      | succ m =>
        have hv : v / 2 < 2 ^ (m + 1) := by
          have : 2 ^ (m + 1 + 1) = 2 * 2 ^ (m + 1) := by ring
          omega
        have := ih (v / 2) m hv
        omega

theorem floorDivDouble_safe (n : Nat) (h : n < 2 ^ 53) : floorDivDouble n 60 = n / 60 := by
  unfold floorDivDouble
  by_cases hn : n < 60
  · simp [hn, Nat.div_eq_of_lt hn]
  · simp only [hn, if_false]
    have hk : n / 60 < 2 ^ (47 + 1) := by
      have : (2 : Nat) ^ 53 ≤ 60 * 2 ^ 48 := by norm_num
      omega
    have he : log2Floor (n / 60) ≤ 47 := log2FloorFuel_le _ _ 47 hk
    have he52 : ¬ 52 ≤ log2Floor (n / 60) := by omega
    simp only [quotientDouble, he52, if_false]
    generalize hs : 52 - log2Floor (n / 60) = s
    have hs5 : 5 ≤ s := by omega
    have hT : 32 ≤ 2 ^ s := by
      calc 32 = 2 ^ 5 := by norm_num
        _ ≤ 2 ^ s := Nat.pow_le_pow_right (by decide) hs5
    generalize hTdef : 2 ^ s = T at hT
    obtain ⟨hlo, hhi, hup⟩ := roundDiv_bounds (n * T) 60
    have hdm := Nat.div_add_mod n 60
    have hmod := Nat.mod_lt n (show 0 < 60 by decide)
    have hdm2 := Nat.div_add_mod (n * T) 60
    have hmod2 := Nat.mod_lt (n * T) (show 0 < 60 by decide)
    have hnT : n * T = 60 * (n / 60 * T) + n % 60 * T := by
      conv_lhs => rw [← hdm]
      ring
    have hrT : n % 60 * T ≤ 59 * T := Nat.mul_le_mul_right T (by omega)
    have hTpos : 0 < T := by omega
    apply Nat.div_eq_of_lt_le
    · show n / 60 * T ≤ roundDiv (n * T) 60
      generalize n / 60 * T = A at hnT ⊢
      generalize n % 60 * T = B at hnT hrT
      generalize n * T = N at hnT hdm2 hmod2 hlo hhi hup
      omega
    · show roundDiv (n * T) 60 < (n / 60 + 1) * T
      have hexp : (n / 60 + 1) * T = n / 60 * T + T := by ring
      rw [hexp]
      generalize n / 60 * T = A at hnT ⊢
      generalize n % 60 * T = B at hnT hrT
      generalize n * T = N at hnT hdm2 hmod2 hlo hhi hup
      by_cases hround : roundDiv N 60 = N / 60 + 1
      · have := hup hround
        omega
      · omega

theorem mathFloorDiv_safe (n : Nat) (h : n < 2 ^ 53) :
    mathFloorDiv (n : Int) 60 = ((n / 60 : Nat) : Int) := by
  have h0 : (0 : Int) ≤ (n : Int) := by omega
  simp only [mathFloorDiv, h0, if_true, Int.toNat_ofNat, floorDivDouble_safe n h]

/-! ## Durations -/

/-- C14, as stated, fails: `67553994410557496` is a non-negative integer and a
double, and `Math.floor(67553994410557496 / 60)` is `1125899906842625`, because
the quotient `1125899906842624.93...` is rounded to the double `1125899906842625`
before it is rounded down. `formatMinutes` shows `1125899906842625h 56m`, although
`floor(n / 60)` is `1125899906842624` and `60 * 1125899906842625 + 56` is not
`n`. -/
theorem formatMinutes_quotient_rounds_up :
    formatMinutes (some 67553994410557496) = "1125899906842625h 56m" ∧
      toDouble 67553994410557496 = 67553994410557496 ∧
      (67553994410557496 : Nat) / 60 = 1125899906842624 ∧
      (67553994410557496 : Nat) % 60 = 56 ∧
      60 * 1125899906842625 + 56 ≠ (67553994410557496 : Nat) := by
  decide!

/-- C14, amended: for every non-negative integer number of minutes `n` below
`2^53`, `formatMinutes(n)` is `h + 'h'` when `n` is a multiple of 60 and
`h + 'h ' + m + 'm'` otherwise, where `h = floor(n / 60)` and `m = n mod 60`, so
that `60 * h + m = n` and `0 <= m < 60`; `123` gives `'2h 3m'`, and `null` gives
`'?'`. -/
theorem formatMinutes_hours_minutes (n : Nat) (hn : n < 2 ^ 53) :
    formatMinutes (some (n : Int)) =
        (if n % 60 = 0 then toString (n / 60) ++ "h"
          else toString (n / 60) ++ "h " ++ toString (n % 60) ++ "m") ∧
      60 * (n / 60) + n % 60 = n ∧ n % 60 < 60 ∧
      formatMinutes (some 123) = "2h 3m" ∧
      formatMinutes none = "?" := by
  have hm : Int.tmod (n : Int) 60 = ((n % 60 : Nat) : Int) := by
    rw [Int.tmod_eq_emod (by omega) (by decide)]
    rfl
  have hd : intToDouble (n : Int) = (n : Int) := intToDouble_safe n hn
  have hh := mathFloorDiv_safe n hn
  have hsh : numberToString ((n / 60 : Nat) : Int) = toString (n / 60) :=
    numberToString_safe (n / 60) (by omega)
  have hsm : numberToString ((n % 60 : Nat) : Int) = toString (n % 60) :=
    numberToString_safe (n % 60) (by omega)
  refine ⟨?_, Nat.div_add_mod n 60, Nat.mod_lt n (by decide), by decide!, rfl⟩
  simp only [formatMinutes, hd, hh, hm, JSVal.toStr, hsh, hsm]
  by_cases h : n % 60 = 0
  · simp [h]
  · have h2 : ¬ ((n % 60 : Nat) : Int) = 0 := by exact_mod_cast h
    simp only [h, h2, if_false]

/-- Witness of C14: 123 minutes. -/
theorem formatMinutes_hours_minutes_witness :
    formatMinutes (some ((123 : Nat) : Int)) =
        (if 123 % 60 = 0 then toString (123 / 60) ++ "h"
          else toString (123 / 60) ++ "h " ++ toString (123 % 60) ++ "m") ∧
      60 * (123 / 60) + 123 % 60 = 123 ∧ 123 % 60 < 60 ∧
      formatMinutes (some 123) = "2h 3m" ∧
      formatMinutes none = "?" :=
  formatMinutes_hours_minutes 123 (by decide)

/-! ## Roles of crew and cast entries -/

theorem filterCredits_sources (momentYear : JSVal → JSNum) (credits : List RawCredit) :
    (∀ fd ∈ (filterCredits momentYear credits).filteredCredits,
        ∃ d ∈ credits, survives momentYear d = true ∧ fd = toNormalized momentYear d) ∧
      (∀ fd ∈ (filterCredits momentYear credits).filteredMovies,
        ∃ d ∈ credits, survives momentYear d = true ∧ fd = toNormalized momentYear d) := by
  have hc : ∀ fd ∈ (filterCredits momentYear credits).filteredCredits,
      ∃ d ∈ credits, survives momentYear d = true ∧ fd = toNormalized momentYear d := by
    intro fd hfd
    rw [filterCredits_eq] at hfd
    obtain ⟨d, hd, rfl⟩ := List.mem_map.mp hfd
    exact ⟨d, (List.mem_filter.mp hd).1, (List.mem_filter.mp hd).2, rfl⟩
  refine ⟨hc, ?_⟩
  intro fd hfd
  rw [filteredMovies_eq_firstById] at hfd
  exact hc fd ((firstById_sublist _).subset hfd)

/-- C15, as stated, fails: the cast entry `creditQuestionMark` has no job field and
a truthy character, the string `"?"`, and `filterCredits` writes the role `'?'`
for it. -/
theorem question_mark_role_of_truthy_character :
    (filterCredits exampleYear [creditQuestionMark]).filteredCredits.map
        NormalizedCredit.role = [JSVal.str "?"] ∧
      (filterCredits exampleYear [creditQuestionMark]).filteredMovies.map
        NormalizedCredit.role = [JSVal.str "?"] ∧
      creditQuestionMark.job = none ∧
      creditQuestionMark.character.truthy = true := by
  decide

/-- C15, amended: every entry of either output of `filterCredits` comes from a
surviving input entry; one that comes from a crew entry (an entry with a job
field) has role exactly "Director" or "Producer"; hence the role `'?'` only
appears on entries that come from cast entries (no job field) whose character is
falsy or is itself the string `'?'`, and every cast entry with a falsy character
gets it. -/
theorem filterCredits_crew_roles (momentYear : JSVal → JSNum) (credits : List RawCredit) :
    (∀ fd ∈ (filterCredits momentYear credits).filteredCredits,
        ∃ d ∈ credits, survives momentYear d = true ∧ fd = toNormalized momentYear d) ∧
      (∀ fd ∈ (filterCredits momentYear credits).filteredMovies,
        ∃ d ∈ credits, survives momentYear d = true ∧ fd = toNormalized momentYear d) ∧
      (∀ d : RawCredit, survives momentYear d = true → d.job ≠ none →
        (toNormalized momentYear d).role = JSVal.str "Director" ∨
          (toNormalized momentYear d).role = JSVal.str "Producer") ∧
      (∀ d : RawCredit, survives momentYear d = true →
        (toNormalized momentYear d).role = JSVal.str "?" →
        d.job = none ∧ (d.character.truthy = false ∨ d.character = JSVal.str "?")) ∧
      (∀ d : RawCredit, d.job = none → d.character.truthy = false →
        (toNormalized momentYear d).role = JSVal.str "?") := by
  have hcrew : ∀ d : RawCredit, survives momentYear d = true → d.job ≠ none →
      (toNormalized momentYear d).role = JSVal.str "Director" ∨
        (toNormalized momentYear d).role = JSVal.str "Producer" := by
    intro d hs hjob
    rcases ((survives_iff momentYear d).mp hs).2 with h | h | h
    · exact absurd h hjob
    · left
      simp only [toNormalized, roleOf, h, JSVal.or]
      decide
    · right
      simp only [toNormalized, roleOf, h, JSVal.or]
      decide
  refine ⟨(filterCredits_sources momentYear credits).1,
    (filterCredits_sources momentYear credits).2, hcrew, ?_, ?_⟩
  · intro d hs hrole
    by_cases hjob : d.job = none
    · refine ⟨hjob, ?_⟩
      by_cases ht : d.character.truthy = true
      · right
        simpa [toNormalized, roleOf, hjob, JSVal.or, ht] using hrole
      · left
        simpa using ht
    · rcases hcrew d hs hjob with h | h
      · rw [h] at hrole
        exact absurd hrole (by decide)
      · rw [h] at hrole
        exact absurd hrole (by decide)
  · intro d hjob hfalsy
    simp [toNormalized, roleOf, hjob, JSVal.or, hfalsy]

/-! ## Overviews -/

theorem split_ne_nil (sep : Char) (l : List Char) : split sep l ≠ [] := by
  cases l with
  | nil => simp [split]
  | cons c cs =>
    simp only [split]
    split
    · simp
    · split <;> simp

theorem split_no_sep (sep : Char) (l : List Char) : ∀ w ∈ split sep l, sep ∉ w := by
  induction l with
  | nil => intro w hw; simp [split] at hw; simp [hw]
  | cons c cs ih =>
    intro w hw
    simp only [split] at hw
    by_cases hc : c = sep
    · simp only [hc, if_true, List.mem_cons] at hw
      rcases hw with rfl | hw
      · simp
      · exact ih w hw
    · simp only [hc, if_false] at hw
      cases hs : split sep cs with
      | nil => exact absurd hs (split_ne_nil sep cs)
      | cons v vs =>
        rw [hs] at hw ih
        simp only [List.mem_cons] at hw
        rcases hw with rfl | hw
        · intro hmem
          rcases List.mem_cons.mp hmem with h | h
          · exact hc h.symm
          · exact ih v (by simp) h
        · exact ih w (by simp [hw])

theorem join_data_cons (sep s : String) (rest : List String) :
    (join sep (s :: rest)).data =
      s.data ++ (if rest = [] then [] else sep.data ++ (join sep rest).data) := by
  cases rest with
  | nil => simp [join]
  | cons t rest => simp [join, String.data_append]

theorem join_split (l : List Char) :
    (join " " ((split ' ' l).map String.mk)).data = l := by
  induction l with
  | nil => simp [split, join]
  | cons c cs ih =>
    simp only [split]
    by_cases hc : c = ' '
    · simp only [hc, if_true, List.map_cons]
      rw [join_data_cons]
      have hne : List.map String.mk (split ' ' cs) ≠ [] := by
        simpa using split_ne_nil ' ' cs
      simp only [hne, if_false, ih]
      rfl
    · simp only [hc, if_false]
      cases hs : split ' ' cs with
      | nil => exact absurd hs (split_ne_nil ' ' cs)
      | cons v vs =>
        rw [hs] at ih
        simp only [List.map_cons] at ih ⊢
        rw [join_data_cons] at ih ⊢
        exact congrArg (List.cons c) ih

theorem join_split_string (s : String) :
    join " " ((split ' ' s.data).map String.mk) = s := by
  apply String.ext
  exact join_split s.data

/-- C16: with `words` the pieces of `overview` between its space characters (no
piece holds a space, and the pieces joined by single spaces give `overview` back):
when `words` has at most 31 elements, `getShortOverview` returns `overview`
unchanged; when it has more than 31, it returns the first 30 words joined by
single spaces and followed by `'...'`, and that result without the trailing `'...'`
is a proper prefix of `overview`. -/
theorem getShortOverview_words (overview : String) :
    (∀ w ∈ split ' ' overview.data, ' ' ∉ w) ∧
      join " " ((split ' ' overview.data).map String.mk) = overview ∧
      ((split ' ' overview.data).length ≤ 31 → getShortOverview overview = overview) ∧
      (31 < (split ' ' overview.data).length →
        getShortOverview overview =
            join " " (((split ' ' overview.data).map String.mk).take 30) ++ "..." ∧
          (((split ' ' overview.data).map String.mk).take 30).length = 30 ∧
          (join " " (((split ' ' overview.data).map String.mk).take 30)).data <+:
            overview.data ∧
          (join " " (((split ' ' overview.data).map String.mk).take 30)).data ≠
            overview.data) := by
  refine ⟨split_no_sep ' ' overview.data, join_split_string overview, ?_, ?_⟩
  · intro h
    have h2 : ¬ (split ' ' overview.data).length > 31 := by omega
    simp [getShortOverview, h2]
  · intro h
    have hlen : ((split ' ' overview.data).map String.mk).length > 31 := by simpa using h
    generalize hw : (split ' ' overview.data).map String.mk = words at hlen
    have hjoin : join " " words = overview := by rw [← hw]; exact join_split_string overview
    have htl : (words.take 30).length = 30 := by
      rw [List.length_take]
      omega
    have hdl : (words.drop 30).length = words.length - 30 := List.length_drop 30 words
    have htake : words.take 30 ≠ [] := by
      intro hnil
      rw [hnil] at htl
      simp at htl
    have hdrop : words.drop 30 ≠ [] := by
      intro hnil
      rw [hnil] at hdl
      simp at hdl
      omega
    have hsplit : overview =
        join " " (words.take 30) ++ " " ++ join " " (words.drop 30) := by
      rw [← join_append " " _ _ htake hdrop, List.take_append_drop]
      exact hjoin.symm
    have hdata : overview.data =
        (join " " (words.take 30)).data ++ ([' '] ++ (join " " (words.drop 30)).data) := by
      have := congrArg String.data hsplit
      simpa [String.data_append] using this
    refine ⟨?_, htl, ⟨_, hdata.symm⟩, ?_⟩
    · simp only [getShortOverview, hw]
      rw [if_pos hlen]
    · intro heq
      have hl := congrArg List.length hdata
      have hl2 := congrArg List.length heq
      simp only [List.length_append, List.length_singleton] at hl
      omega

/-! ## Genres -/

/-- C19: `getShortGenre` returns `''` when the list is `null` or empty, the display
name of the only genre when the list has one element, and
`display(first) + '/' + display(second)` when it has two or more, where `display`
maps the name "Science Fiction" to "Sci-Fi" and every other name to itself; the
genres after the second do not affect the result. -/
theorem getShortGenre_display (first second : Genre) (others others2 : List Genre) :
    getShortGenre none = JSVal.str "" ∧
      getShortGenre (some []) = JSVal.str "" ∧
      getShortGenre (some [first]) = displayGenre first.name ∧
      getShortGenre (some (first :: second :: others)) =
        JSVal.str ((displayGenre first.name).toStr ++ "/" ++ (displayGenre second.name).toStr) ∧
      getShortGenre (some (first :: second :: others)) =
        getShortGenre (some (first :: second :: others2)) ∧
      displayGenre (JSVal.str "Science Fiction") = JSVal.str "Sci-Fi" ∧
      (∀ name : JSVal, name ≠ JSVal.str "Science Fiction" → displayGenre name = name) ∧
      getShortGenre (some [⟨JSVal.num 878, JSVal.str "Science Fiction"⟩,
        ⟨JSVal.num 18, JSVal.str "Drama"⟩, ⟨JSVal.num 53, JSVal.str "Thriller"⟩]) =
          JSVal.str "Sci-Fi/Drama" := by
  refine ⟨rfl, rfl, ?_, ?_, rfl, ?_, ?_, by decide⟩
  · simp [getShortGenre, displayGenre, JSVal.strictEq]
  · simp [getShortGenre, displayGenre, JSVal.strictEq]
  · simp [displayGenre]
  · intro name h
    simp [displayGenre, h]

/-! ## Amounts -/

theorem digitChar_isDigit (k : Nat) (h : k < 10) : (Nat.digitChar k).isDigit = true := by
  interval_cases k <;> decide

theorem toDigitsCore_isDigit (fuel : Nat) :
    ∀ (n : Nat) (ds : List Char), (∀ c ∈ ds, c.isDigit = true) →
      ∀ c ∈ Nat.toDigitsCore 10 fuel n ds, c.isDigit = true := by
  induction fuel with
  | zero => intro n ds h; simpa [Nat.toDigitsCore] using h
  | succ f ih =>
    intro n ds h
    have hd : ∀ c ∈ Nat.digitChar (n % 10) :: ds, c.isDigit = true := by
      intro c hc
      rcases List.mem_cons.mp hc with rfl | hc
      · exact digitChar_isDigit _ (Nat.mod_lt n (by decide))
      · exact h c hc
    simp only [Nat.toDigitsCore]
    split
    · exact hd
    · exact ih _ _ hd

theorem toDigits_isDigit (n : Nat) : ∀ c ∈ Nat.toDigits 10 n, c.isDigit = true :=
  toDigitsCore_isDigit _ n [] (by simp)

theorem toDigitsCore_ne_nil (fuel : Nat) :
    ∀ (n : Nat) (ds : List Char), ds ≠ [] → Nat.toDigitsCore 10 fuel n ds ≠ [] := by
  induction fuel with
  | zero => intro n ds h; simpa [Nat.toDigitsCore] using h
  | succ f ih =>
    intro n ds _
    simp only [Nat.toDigitsCore]
    split
    · simp
    · exact ih _ _ (by simp)

theorem toDigits_ne_nil (n : Nat) : Nat.toDigits 10 n ≠ [] := by
  unfold Nat.toDigits
  simp only [Nat.toDigitsCore]
  split
  · simp
  · exact toDigitsCore_ne_nil _ _ _ (by simp)

theorem toDigitsCore_head (fuel : Nat) :
    ∀ (n : Nat) (ds : List Char), 0 < n → n < fuel →
      ∃ k rest, 0 < k ∧ k < 10 ∧ Nat.toDigitsCore 10 fuel n ds = Nat.digitChar k :: rest := by
  induction fuel with
  | zero => intro n ds _ h; omega
  | succ f ih =>
    intro n ds hpos hlt
    simp only [Nat.toDigitsCore]
    split
    · rename_i h0
      exact ⟨n % 10, ds, by omega, Nat.mod_lt n (by decide), rfl⟩
    · rename_i h0
      exact ih (n / 10) _ (by omega) (by omega)

theorem toDigits_head (n : Nat) (hpos : 0 < n) : (Nat.toDigits 10 n).head? ≠ some '0' := by
  obtain ⟨k, rest, hk0, hk10, h⟩ := toDigitsCore_head (n + 1) n [] hpos (by omega)
  unfold Nat.toDigits
  rw [h]
  simp only [List.head?_cons, ne_eq, Option.some.injEq]
  interval_cases k <;> decide

theorem isWordChar_of_isDigit (c : Char) (h : c.isDigit = true) : isWordChar c = true := by
  simp [isWordChar, Char.isAlphanum, h]

theorem ne_comma_of_isDigit (c : Char) (h : c.isDigit = true) : c ≠ ',' := by
  intro hc
  rw [hc] at h
  exact absurd h (by decide)

theorem digitRun_of_digits (l : List Char) (h : ∀ c ∈ l, c.isDigit = true) :
    digitRun l = l.length := by
  induction l with
  | nil => rfl
  | cons c cs ih =>
    have hc := h c (List.mem_cons_self c cs)
    simp [digitRun, hc, ih (fun x hx => h x (List.mem_cons_of_mem c hx))]

theorem insertCommas_filter (l : List Char) :
    ∀ before : Option Char,
      (insertCommas before l).filter (fun c => c != ',') = l.filter (fun c => c != ',') := by
  induction l with
  | nil => intro before; rfl
  | cons c cs ih =>
    intro before
    simp only [insertCommas]
    split
    · simp [List.filter_cons, ih]
    · simp [List.filter_cons, ih]

theorem insertCommas_mem (l : List Char) :
    ∀ (before : Option Char) (c : Char), c ∈ insertCommas before l → c = ',' ∨ c ∈ l := by
  induction l with
  | nil => intro before c hc; simp [insertCommas] at hc
  | cons x xs ih =>
    intro before c hc
    simp only [insertCommas] at hc
    rcases List.mem_append.mp hc with h | h
    · left
      split at h
      · simpa using h
      · simp at h
    · rcases List.mem_cons.mp h with rfl | h
      · right; exact List.mem_cons_self _ _
      · rcases ih _ c h with h | h
        · left; exact h
        · right; exact List.mem_cons_of_mem _ h

theorem insertCommas_ne_nil (before : Option Char) (l : List Char) (h : l ≠ []) :
    insertCommas before l ≠ [] := by
  cases l with
  | nil => exact absurd rfl h
  | cons c cs => simp [insertCommas]

theorem split_cons_ne (sep c : Char) (rest : List Char) (h : c ≠ sep) :
    ∃ w ws, split sep rest = w :: ws ∧ split sep (c :: rest) = (c :: w) :: ws := by
  cases hs : split sep rest with
  | nil => exact absurd hs (split_ne_nil sep rest)
  | cons w ws => exact ⟨w, ws, rfl, by simp [split, h, hs]⟩

theorem split_mem (sep : Char) (l : List Char) : ∀ w ∈ split sep l, ∀ c ∈ w, c ∈ l := by
  induction l with
  | nil => intro w hw c hc; simp [split] at hw; simp [hw] at hc
  | cons x xs ih =>
    intro w hw c hc
    by_cases hx : x = sep
    · simp only [split, hx, if_true, List.mem_cons] at hw
      rcases hw with rfl | hw
      · simp at hc
      · exact List.mem_cons_of_mem _ (ih w hw c hc)
    · obtain ⟨v, vs, hs, hs2⟩ := split_cons_ne sep x xs hx
      rw [hs2] at hw
      rw [hs] at ih
      rcases List.mem_cons.mp hw with rfl | hw
      · rcases List.mem_cons.mp hc with rfl | hc
        · exact List.mem_cons_self _ _
        · exact List.mem_cons_of_mem _ (ih v (List.mem_cons_self _ _) c hc)
      · exact List.mem_cons_of_mem _ (ih w (List.mem_cons_of_mem _ hw) c hc)

theorem commaHere_digits (b c : Char) (cs : List Char) (hb : isWordChar b = true)
    (h : ∀ x ∈ c :: cs, x.isDigit = true) :
    commaHere (some b) (c :: cs) = true ↔ (cs.length + 1) % 3 = 0 := by
  simp [commaHere, hb, digitRun_of_digits (c :: cs) h]

theorem split_cons_sep (sep : Char) (rest : List Char) :
    split sep (sep :: rest) = [] :: split sep rest := by
  simp [split]

theorem split_insertCommas (ds : List Char) :
    ∀ b : Char, isWordChar b = true → (∀ c ∈ ds, c.isDigit = true) →
      ∃ g gs, split ',' (insertCommas (some b) ds) = g :: gs ∧
        g.length = ds.length % 3 ∧ ∀ x ∈ gs, x.length = 3 := by
  induction ds with
  | nil => intro b _ _; exact ⟨[], [], rfl, rfl, by simp⟩
  | cons c cs ih =>
    intro b hb h
    have hc := h c (List.mem_cons_self c cs)
    obtain ⟨g, gs, hs, hg, hgs⟩ := ih c (isWordChar_of_isDigit c hc)
      (fun x hx => h x (List.mem_cons_of_mem c hx))
    obtain ⟨w, ws, hw, hw2⟩ := split_cons_ne ',' c (insertCommas (some c) cs)
      (ne_comma_of_isDigit c hc)
    rw [hs] at hw
    obtain ⟨rfl, rfl⟩ := List.cons.inj hw
    by_cases h3 : (cs.length + 1) % 3 = 0
    · have hcomma : commaHere (some b) (c :: cs) = true :=
        (commaHere_digits b c cs hb h).mpr h3
      refine ⟨[], (c :: g) :: gs, ?_, ?_, ?_⟩
      · simp only [insertCommas, hcomma, if_true, List.singleton_append]
        rw [split_cons_sep, hw2]
      · simp only [List.length_nil, List.length_cons]
        omega
      · intro x hx
        rcases List.mem_cons.mp hx with rfl | hx
        · simp only [List.length_cons]
          omega
        · exact hgs x hx
    · have hcomma : ¬ commaHere (some b) (c :: cs) = true :=
        fun hcm => h3 ((commaHere_digits b c cs hb h).mp hcm)
      refine ⟨c :: g, gs, ?_, ?_, hgs⟩
      · simp only [insertCommas, hcomma, if_false, List.nil_append]
        exact hw2
      · simp only [List.length_cons]
        omega

theorem groupThousands_digits (ds : List Char) (hne : ds ≠ [])
    (h : ∀ c ∈ ds, c.isDigit = true) :
    ∃ first rest, split ',' (insertCommas none ds) = first :: rest ∧
      1 ≤ first.length ∧ first.length ≤ 3 ∧ ∀ x ∈ rest, x.length = 3 := by
  cases ds with
  | nil => exact absurd rfl hne
  | cons c cs =>
    have hc := h c (List.mem_cons_self c cs)
    obtain ⟨g, gs, hs, hg, hgs⟩ := split_insertCommas cs c (isWordChar_of_isDigit c hc)
      (fun x hx => h x (List.mem_cons_of_mem c hx))
    obtain ⟨w, ws, hw, hw2⟩ := split_cons_ne ',' c (insertCommas (some c) cs)
      (ne_comma_of_isDigit c hc)
    rw [hs] at hw
    obtain ⟨rfl, rfl⟩ := List.cons.inj hw
    refine ⟨c :: g, gs, ?_, ?_, ?_, hgs⟩
    · have hcomma : ¬ commaHere none (c :: cs) = true := by simp [commaHere]
      simp only [insertCommas, hcomma, if_false, List.nil_append]
      exact hw2
    · simp
    · simp only [List.length_cons]
      omega

theorem join_split_sep (sep : Char) (l : List Char) :
    (join (String.mk [sep]) ((split sep l).map String.mk)).data = l := by
  induction l with
  | nil => simp [split, join]
  | cons c cs ih =>
    by_cases hc : c = sep
    · rw [hc, split_cons_sep, List.map_cons, join_data_cons]
      have hne : List.map String.mk (split sep cs) ≠ [] := by
        simpa using split_ne_nil sep cs
      simp only [hne, if_false, ih]
      rfl
    · obtain ⟨w, ws, hw, hw2⟩ := split_cons_ne sep c cs hc
      rw [hw] at ih
      rw [hw2]
      simp only [List.map_cons] at ih ⊢
      rw [join_data_cons] at ih ⊢
      exact congrArg (List.cons c) ih

theorem toStr_num_nat (n : Nat) (h : n < 2 ^ 53) :
    (JSVal.num (n : Int)).toStr = String.mk (Nat.toDigits 10 n) :=
  numberToString_safe n h

/-- C17, as stated, fails: `2^55 = 36028797018963968` is an integer below `10^21`
and a double, and `toString` prints the shortest decimal that reads back as it,
`36028797018963970`. `formatCurrency` shows `$36,028,797,018,963,970`, and
deleting the commas does not give back the decimal digits of the amount. -/
theorem formatCurrency_shortest_digits :
    formatCurrency exampleParseFloat (JSVal.num 36028797018963968) =
        Except.ok "$36,028,797,018,963,970" ∧
      (36028797018963968 : Nat) = 2 ^ 55 ∧
      (36028797018963968 : Nat) < 10 ^ 21 ∧
      toDouble 36028797018963968 = 36028797018963968 ∧
      removeCommas "36,028,797,018,963,970" ≠ String.mk (Nat.toDigits 10 36028797018963968) := by
  refine ⟨?_, by decide!, by decide!, by decide!, by decide!⟩
  have h : numberToString 36028797018963968 = "36028797018963970" := by decide!
  have hg : groupThousands "36028797018963970" = "36,028,797,018,963,970" := by decide!
  simp only [formatCurrency, JSVal.strictEq, JSVal.toStr, h, hg]
  rfl

/-- C17, amended: for every integer amount `n` with `0 < n < 2^53` passed as a
number, `formatCurrency(n)` is `'$'` followed by the decimal digits of `n` with
commas between groups of digits: deleting the commas gives back the decimal digits
of `n` (at most 16 of them, the first not `0`), the pieces between the commas are
groups of digits of which the first has one to three digits and every other
exactly three, and feeding the comma-grouped string (without `'$'`) back to
`formatCurrency`, where `parseFloat` reads the digits of `n` as `n`, returns the
same result as `formatCurrency(n)`. -/
theorem formatCurrency_grouping (parseFloat : String → JSNum) (n : Nat) (hpos : 0 < n)
    (hlt : n < 2 ^ 53) (hparse : parseFloat (String.mk (Nat.toDigits 10 n)) = JSNum.int n) :
    ∃ grouped : List Char,
      formatCurrency parseFloat (JSVal.num (n : Int)) = Except.ok (String.mk ('$' :: grouped)) ∧
      grouped.filter (fun c => c != ',') = Nat.toDigits 10 n ∧
      (Nat.toDigits 10 n).length ≤ 16 ∧ (Nat.toDigits 10 n).head? ≠ some '0' ∧
      (∃ first rest, split ',' grouped = first :: rest ∧
        1 ≤ first.length ∧ first.length ≤ 3 ∧ (∀ g ∈ rest, g.length = 3) ∧
        (∀ g ∈ first :: rest, ∀ c ∈ g, c.isDigit = true)) ∧
      (join "," ((split ',' grouped).map String.mk)).data = grouped ∧
      formatCurrency parseFloat (JSVal.str (String.mk grouped)) =
        formatCurrency parseFloat (JSVal.num (n : Int)) := by
  have hdig := toDigits_isDigit n
  have hne := toDigits_ne_nil n
  have hnocomma : (Nat.toDigits 10 n).filter (fun c => c != ',') = Nat.toDigits 10 n := by
    apply List.filter_eq_self.mpr
    intro c hc
    simpa using ne_comma_of_isDigit c (hdig c hc)
  have hnum : formatCurrency parseFloat (JSVal.num (n : Int)) =
      Except.ok (String.mk ('$' :: insertCommas none (Nat.toDigits 10 n))) := by
    simp only [formatCurrency, JSVal.strictEq, toStr_num_nat n hlt, groupThousands]
    rfl
  have hfilter : (insertCommas none (Nat.toDigits 10 n)).filter (fun c => c != ',') =
      Nat.toDigits 10 n := by
    rw [insertCommas_filter, hnocomma]
  refine ⟨insertCommas none (Nat.toDigits 10 n), hnum, hfilter,
    Nat.toDigitsCore_length 10 (by decide) (n + 1) n 16
      (lt_of_lt_of_le hlt (by norm_num)) (by decide),
    toDigits_head n hpos, ?_, join_split_sep ',' _, ?_⟩
  · obtain ⟨first, rest, hs, h1, h3, hrest⟩ :=
      groupThousands_digits (Nat.toDigits 10 n) hne hdig
    refine ⟨first, rest, hs, h1, h3, hrest, ?_⟩
    intro g hg c hc
    rw [← hs] at hg
    have hmem := split_mem ',' _ g hg c hc
    have hsep := split_no_sep ',' _ g hg
    rcases insertCommas_mem _ _ c hmem with h | h
    · rw [h] at hc
      exact absurd hc hsep
    · exact hdig c h
  · rw [hnum]
    have hnonempty : String.mk (insertCommas none (Nat.toDigits 10 n)) ≠ "" := by
      intro h
      have := congrArg String.data h
      exact insertCommas_ne_nil none _ hne this
    have hremove : removeCommas (String.mk (insertCommas none (Nat.toDigits 10 n))) =
        String.mk (Nat.toDigits 10 n) := by
      simp only [removeCommas, hfilter]
    have hprint : (JSNum.int (n : Int)).toStr = String.mk (Nat.toDigits 10 n) :=
      numberToString_safe n hlt
    simp only [formatCurrency, JSVal.strictEq, hremove, hparse, groupThousands, hprint]
    simp only [JSVal.str.injEq, hnonempty, decide_False, Bool.false_eq_true, if_false]
    rfl

/-- Witness of C17: the amount `1234567`, which `formatCurrency` shows as
`$1,234,567`. -/
theorem formatCurrency_grouping_witness :
    ∃ grouped : List Char,
      formatCurrency exampleParseFloat (JSVal.num ((1234567 : Nat) : Int)) =
        Except.ok (String.mk ('$' :: grouped)) ∧
      grouped.filter (fun c => c != ',') = Nat.toDigits 10 1234567 ∧
      (Nat.toDigits 10 1234567).length ≤ 16 ∧ (Nat.toDigits 10 1234567).head? ≠ some '0' ∧
      (∃ first rest, split ',' grouped = first :: rest ∧
        1 ≤ first.length ∧ first.length ≤ 3 ∧ (∀ g ∈ rest, g.length = 3) ∧
        (∀ g ∈ first :: rest, ∀ c ∈ g, c.isDigit = true)) ∧
      (join "," ((split ',' grouped).map String.mk)).data = grouped ∧
      formatCurrency exampleParseFloat (JSVal.str (String.mk grouped)) =
        formatCurrency exampleParseFloat (JSVal.num ((1234567 : Nat) : Int)) :=
  formatCurrency_grouping exampleParseFloat 1234567 (by decide) (by decide) (by decide)

end Movion
